import Mathlib

/-!
# Verification of the konakore sync scheduler

Shallow embedding of the PL/pgSQL synchronization core of the repository:

* `sync_posts_from_remote`  (src/migrations/002_sync_functions.sql, lines 1-33)
* `task_backfill_all_posts` (src/migrations/002_sync_functions.sql, lines 35-81)
* `task_sync_recent_posts`  (src/migrations/002_sync_functions.sql, lines 83-135)

over the schema of src/migrations/001_initial_schema.sql (`posts` and
`schedule_state`).

Modelling conventions:

* `jsonb` scalar values are `JVal`; a `jsonb` object is an association list
  `JObj` (PostgreSQL stores object keys uniquely; key *order* in our lists is
  only ever inspected through `jlookup`/`hasKey`, or through objects built
  wholesale by `jsonb_build_object`, so the sort order PostgreSQL applies to
  keys is immaterial here).
* The `jsonb ||` concatenation operator (right operand wins) is `jconcat`.
* The remote HTTP call is an environment input `HttpOutcome`: either the
  `http_get` call raises (transport error), or it yields a status code and the
  result of casting the response text to `jsonb` (`none` when that cast fails,
  i.e. the body does not decode as JSON).  Array elements are modelled as JSON
  objects, which is the only shape the loop body of `sync_posts_from_remote`
  accepts without raising on the `id` extraction.
* An uncaught PL/pgSQL exception aborts the calling statement and rolls back
  its writes; fallible functions therefore return `Except Unit`, with
  `.error ()` standing for a raised error and all writes discarded.
* Timestamps (`NOW()`) are an explicit `now : Nat` parameter.
* `cron.schedule` / `cron.unschedule` for the job is an `Option String`
  field holding the current schedule string.
* The SQL `%` on `INT` truncates toward zero, i.e. `Int.tmod`.
-/

inductive JVal where
  | jnull : JVal
  | jbool : Bool → JVal
  | jnum : Int → JVal
  | jstr : String → JVal
deriving DecidableEq

abbrev JObj := List (String × JVal)

/-- Key lookup in a `jsonb` object (the `->` / `->>` operator on objects). -/
def jlookup : JObj → String → Option JVal
  | [], _ => none
  | p :: rest, k => if p.1 = k then some p.2 else jlookup rest k

/-- The `?` existence operator: does the object carry the key. -/
def hasKey (o : JObj) (k : String) : Bool := (jlookup o k).isSome

/-- The `jsonb || jsonb` concatenation operator on objects: keys of the right
operand win. -/
def jconcat : JObj → JObj → JObj
  | [], b => b
  | p :: rest, b => if hasKey b p.1 then jconcat rest b else p :: jconcat rest b

/-- A possibly-NULL SQL integer rendered as a `jsonb` value
(`jsonb_build_object` turns SQL NULL into JSON null). -/
def jnumOpt : Option Int → JVal
  | none => JVal.jnull
  | some n => JVal.jnum n

/-- `(o ->> k)::INT` — extract the key as text and cast to INT.  A missing key
or JSON null gives SQL NULL (`ok none`); a textual value that does not parse
as an integer, or a boolean (whose text `true`/`false` does not parse),
raises. -/
def castTextInt : Option JVal → Except Unit (Option Int)
  | none => .ok none
  | some JVal.jnull => .ok none
  | some (JVal.jnum n) => .ok (some n)
  | some (JVal.jbool _) => .error ()
  | some (JVal.jstr s) =>
    match s.toInt? with
    | some n => .ok (some n)
    | none => .error ()

/-- `(o ->> k)::BOOLEAN` — extract the key as text and cast to BOOLEAN.
PostgreSQL's text-to-boolean cast accepts the spellings below and raises on
anything else; the numbers 1 and 0 print as text accepted by the cast. -/
def castTextBool : Option JVal → Except Unit (Option Bool)
  | none => .ok none
  | some JVal.jnull => .ok none
  | some (JVal.jbool b) => .ok (some b)
  | some (JVal.jnum n) =>
    if n = 1 then .ok (some true)
    else if n = 0 then .ok (some false)
    else .error ()
  | some (JVal.jstr s) =>
    if s ∈ ["true", "t", "yes", "on", "1"] then .ok (some true)
    else if s ∈ ["false", "f", "no", "off", "0"] then .ok (some false)
    else .error ()

/-- Three-valued SQL condition: a NULL boolean is not true. -/
def condTrue (o : Option Bool) : Bool := o = some true

/-- The decoded `jsonb` response body, as far as `sync_posts_from_remote`
discriminates it: SQL NULL, a JSON array of (object) items, or some other
JSON value (on which `jsonb_array_length` raises). -/
inductive JsonDoc where
  | jnull : JsonDoc
  | jarr : List JObj → JsonDoc
  | jother : JsonDoc
deriving DecidableEq

/-- The environment's answer to the `net.http_get` call inside
`sync_posts_from_remote`: either the call raises (transport failure), or it
produces an HTTP status code together with the result of casting the response
text to `jsonb` (`none` when the body is not valid JSON). -/
inductive HttpOutcome where
  | transportError : HttpOutcome
  | response : Nat → Option JsonDoc → HttpOutcome
deriving DecidableEq

/-- A row of the `posts` table (src/migrations/001_initial_schema.sql,
lines 3-9), minus the `id` column which is the association key. -/
structure Post where
  raw_data : JObj
  is_processed : Bool
  is_liked : Bool
  last_synced_at : Nat
deriving DecidableEq

/-- The `posts` table: rows keyed by `id`, in physical order (inserts
append). -/
abbrev PostsTable := List (Int × Post)

/-- `(post_item->>'id')::BIGINT` for one fetched array element. -/
def itemId (item : JObj) : Except Unit (Option Int) :=
  castTextInt (jlookup item "id")

/-- One iteration of the insert loop of `sync_posts_from_remote`:
`INSERT INTO posts (id, raw_data, last_synced_at) VALUES (...) ON CONFLICT
(id) DO UPDATE SET raw_data = EXCLUDED.raw_data, last_synced_at = NOW()`.
A NULL id violates the primary-key NOT NULL constraint and raises. -/
def upsertPost (now : Nat) (item : JObj) (t : PostsTable) :
    Except Unit PostsTable :=
  match itemId item with
  | .error _ => .error ()
  | .ok none => .error ()
  | .ok (some i) =>
    if t.any (fun p => p.1 = i) then
      .ok (t.map (fun p =>
        if p.1 = i then
          (p.1, { p.2 with raw_data := item, last_synced_at := now })
        else p))
    else
      .ok (t ++ [(i, ⟨item, false, false, now⟩)])

/-- The `FOR post_item IN SELECT * FROM jsonb_array_elements(response)` loop. -/
def upsertAll (now : Nat) (items : List JObj) (t : PostsTable) :
    Except Unit PostsTable :=
  match items with
  | [] => .ok t
  | item :: rest => do upsertAll now rest (← upsertPost now item t)

/-- `sync_posts_from_remote` (src/migrations/002_sync_functions.sql,
lines 1-33).  Returns the status code together with the updated `posts`
table.  The guarded block catches any error of the HTTP request and of the
text-to-`jsonb` cast and returns -1; a NULL or empty-array response returns
0; otherwise each array element is upserted and the count returned.  A
non-array JSON response makes `jsonb_array_length` raise outside the guarded
block.  Note the HTTP status code of a delivered response is never
inspected. -/
def sync_posts_from_remote (now : Nat) (resp : HttpOutcome)
    (t : PostsTable) : Except Unit (Int × PostsTable) :=
  match resp with
  | HttpOutcome.transportError => .ok (-1, t)
  | HttpOutcome.response _ none => .ok (-1, t)
  | HttpOutcome.response _ (some JsonDoc.jnull) => .ok (0, t)
  | HttpOutcome.response _ (some JsonDoc.jother) => .error ()
  | HttpOutcome.response _ (some (JsonDoc.jarr items)) =>
    if items.length = 0 then .ok (0, t)
    else do
      let t' ← upsertAll now items t
      .ok ((items.length : Int), t')

/-- `MAX_RETRIES` of `task_backfill_all_posts` (line 42). -/
def MAX_RETRIES_BACKFILL : Int := 10

/-- `MAX_RETRIES` of `task_sync_recent_posts` (line 90). -/
def MAX_RETRIES_RECURRING : Int := 5

/-- The parts of the database a backfill tick touches: the `posts` table, the
`schedule_state` row of job `backfill-all` (its `state` jsonb and
`last_run_at`), and the job's `cron` schedule entry. -/
structure BackfillDb where
  posts : PostsTable
  state : JObj
  lastRun : Option Nat
  cron : Option String
deriving DecidableEq

/-- `task_backfill_all_posts` (src/migrations/002_sync_functions.sql,
lines 35-81). -/
def task_backfill_all_posts (now : Nat) (resp : HttpOutcome)
    (db : BackfillDb) : Except Unit BackfillDb := do
  let current_page ← castTextInt (jlookup db.state "current_page")
  let is_active ← castTextBool (jlookup db.state "is_active")
  let retries ← castTextInt (jlookup db.state "retries")
  -- IF NOT is_active THEN RETURN; END IF;  (NULL is_active falls through)
  if is_active = some false then
    .ok db
  else do
    let r ← sync_posts_from_remote now resp db.posts
    let processed_count := r.1
    if processed_count > 0 then
      .ok { posts := r.2
            state := jconcat db.state
              [("current_page", jnumOpt (current_page.map (· + 1))),
               ("retries", JVal.jnum 0)]
            lastRun := some now
            cron := some "10 seconds" }
    else if processed_count = 0 then
      .ok { posts := r.2
            state := jconcat db.state
              [("final_status", JVal.jstr "completed"),
               ("is_active", JVal.jbool false)]
            lastRun := some now
            cron := none }
    else if processed_count = -1 then
      if condTrue (retries.map (fun x => x + 1 ≥ MAX_RETRIES_BACKFILL)) then
        .ok { posts := r.2
              state := jconcat db.state
                [("final_status", JVal.jstr "failed"),
                 ("is_active", JVal.jbool false)]
              lastRun := some now
              cron := none }
      else
        .ok { posts := r.2
              state := jconcat db.state
                [("retries", jnumOpt (retries.map (· + 1)))]
              lastRun := some now
              cron := some "5 minutes" }
    else
      -- CASE with no matching WHEN raises CASE_NOT_FOUND (unreachable:
      -- sync_posts_from_remote only returns -1, 0 or a positive count).
      .error ()

/-- The parts of the database a recurring tick touches: the `posts` table and
the `schedule_state` row of job `sync-recent`.  The recurring job never
reconfigures its own cron entry. -/
structure RecurringDb where
  posts : PostsTable
  state : JObj
  lastRun : Option Nat
deriving DecidableEq

/-- `next_page := (current_page % 30) + 1` — SQL `%` truncates toward 0. -/
def nextPage (cp : Option Int) : Option Int := cp.map (fun c => Int.tmod c 30 + 1)

/-- `task_sync_recent_posts` (src/migrations/002_sync_functions.sql,
lines 83-135). -/
def task_sync_recent_posts (now : Nat) (resp : HttpOutcome)
    (db : RecurringDb) : Except Unit RecurringDb := do
  let current_page ← castTextInt (jlookup db.state "current_page")
  let retries ← castTextInt (jlookup db.state "retries")
  let r ← sync_posts_from_remote now resp db.posts
  let processed_count := r.1
  if processed_count > 0 then
    .ok { posts := r.2
          state := [("current_page", jnumOpt (nextPage current_page)),
                    ("retries", JVal.jnum 0)]
          lastRun := some now }
  else if processed_count = 0 then
    .ok { posts := r.2
          state := [("current_page", jnumOpt (nextPage current_page)),
                    ("retries", JVal.jnum 0)]
          lastRun := some now }
  else if processed_count = -1 then
    if condTrue (retries.map (fun x => x + 1 ≥ MAX_RETRIES_RECURRING)) then
      .ok { posts := r.2
            state := [("current_page", jnumOpt (nextPage current_page)),
                      ("retries", JVal.jnum 0)]
            lastRun := some now }
    else
      .ok { posts := r.2
            state := jconcat db.state
              [("retries", jnumOpt (retries.map (· + 1)))]
            lastRun := some now }
  else
    .error ()

/-- A run of backfill ticks: each list element is the tick's `NOW()` and the
remote outcome it observes. -/
def backfillRun : List (Nat × HttpOutcome) → BackfillDb →
    Except Unit BackfillDb
  | [], db => .ok db
  | (now, resp) :: rest, db => do
    backfillRun rest (← task_backfill_all_posts now resp db)

/-- A run of recurring ticks. -/
def recurringRun : List (Nat × HttpOutcome) → RecurringDb →
    Except Unit RecurringDb
  | [], db => .ok db
  | (now, resp) :: rest, db => do
    recurringRun rest (← task_sync_recent_posts now resp db)

/-- Seed state of job `backfill-all`
(src/migrations/001_initial_schema.sql, line 56). -/
def seedBackfill : JObj :=
  [("current_page", JVal.jnum 1), ("retries", JVal.jnum 0),
   ("is_active", JVal.jbool true)]

/-- Seed state of job `sync-recent`
(src/migrations/001_initial_schema.sql, line 57). -/
def seedRecurring : JObj :=
  [("current_page", JVal.jnum 1), ("retries", JVal.jnum 0)]

/-- The database just after the migrations: empty posts table, seeded
`backfill-all` row, cron entry from
src/migrations/003_bootstrap_schedulers.sql (line 4). -/
def seedBackfillDb : BackfillDb :=
  ⟨[], seedBackfill, none, some "59 seconds"⟩

/-- The database just after the migrations: empty posts table, seeded
`sync-recent` row. -/
def seedRecurringDb : RecurringDb :=
  ⟨[], seedRecurring, none⟩

/-- The three SELECT-INTO reads at the top of `task_backfill_all_posts`
(lines 44-49), as a readiness relation on the loaded row. -/
def bfReads (db : BackfillDb) (cp : Option Int) (act : Option Bool)
    (r : Option Int) : Prop :=
  castTextInt (jlookup db.state "current_page") = .ok cp ∧
  castTextBool (jlookup db.state "is_active") = .ok act ∧
  castTextInt (jlookup db.state "retries") = .ok r

/-- The two SELECT-INTO reads at the top of `task_sync_recent_posts`
(lines 92-96). -/
def recReads (db : RecurringDb) (cp : Option Int) (r : Option Int) : Prop :=
  castTextInt (jlookup db.state "current_page") = .ok cp ∧
  castTextInt (jlookup db.state "retries") = .ok r

/-- The canonical recurring-job state written by the Success, Empty and
give-up branches: exactly the keys `current_page` and `retries`. -/
def recState (c : Int) : JObj :=
  [("current_page", JVal.jnum c), ("retries", JVal.jnum 0)]

/-- An outcome the Fetcher reports as `Failure` (-1), leaving the table
untouched. -/
def FailureResp (resp : HttpOutcome) : Prop :=
  ∀ now t, sync_posts_from_remote now resp t = .ok (-1, t)

/-- An outcome the Fetcher reports as `Empty` (0), leaving the table
untouched. -/
def EmptyResp (resp : HttpOutcome) : Prop :=
  ∀ now t, sync_posts_from_remote now resp t = .ok (0, t)

/-- An outcome the Fetcher reports as `Success` (a positive count). -/
def SuccessResp (resp : HttpOutcome) : Prop :=
  ∀ now t, ∃ c t', sync_posts_from_remote now resp t = .ok (c, t') ∧ 0 < c

/-- Row lookup by `id` in the `posts` table. -/
def lookupPost (t : PostsTable) (i : Int) : Option Post :=
  (t.find? (fun p => p.1 = i)).map (fun p => p.2)

/-- The in-place update a conflicting insert performs on a row: overwrite
`raw_data` and `last_synced_at` of the row with id `i`, leave other rows and
the flag columns alone (the `DO UPDATE SET` clause of `upsertPost`). -/
def overwriteWith (now : Nat) (item : JObj) (i : Int) (p : Int × Post) :
    Int × Post :=
  if p.1 = i then (p.1, { p.2 with raw_data := item, last_synced_at := now })
  else p

/-- Simulation relation between two tables processed by the same remaining
item list: rows are aligned, carry the same id and the same flag columns,
and differ at most in rows whose id is written again by a remaining item. -/
def SimPair (items : List JObj) (p q : Int × Post) : Prop :=
  p.1 = q.1 ∧ p.2.is_liked = q.2.is_liked ∧
  p.2.is_processed = q.2.is_processed ∧
  (p = q ∨ ∃ item ∈ items, itemId item = .ok (some p.1))

/-- Lifting of `SimPair` to aligned tables. -/
def SimW (items : List JObj) (a b : PostsTable) : Prop :=
  List.Forall₂ (SimPair items) a b

instance {ε α : Type} [DecidableEq ε] [DecidableEq α] :
    DecidableEq (Except ε α) := fun x y =>
  match x, y with
  | .error a, .error b =>
    if h : a = b then .isTrue (by rw [h]) else .isFalse (by simp [h])
  | .ok a, .ok b =>
    if h : a = b then .isTrue (by rw [h]) else .isFalse (by simp [h])
  | .error _, .ok _ => .isFalse (by simp)
  | .ok _, .error _ => .isFalse (by simp)

section ScratchTests

-- Concrete sanity checks of the embedding on small inputs.
example :
    task_backfill_all_posts 1 HttpOutcome.transportError
      ⟨[], [("current_page", JVal.jnum 1), ("retries", JVal.jnum 0),
            ("is_active", JVal.jbool true)], none, some "59 seconds"⟩ =
    .ok ⟨[], [("current_page", JVal.jnum 1),
              ("is_active", JVal.jbool true), ("retries", JVal.jnum 1)],
         some 1, some "5 minutes"⟩ := by decide

example :
    task_backfill_all_posts 1 HttpOutcome.transportError
      ⟨[], [("current_page", JVal.jnum 1), ("retries", JVal.jnum 9),
            ("is_active", JVal.jbool true)], none, some "5 minutes"⟩ =
    .ok ⟨[], [("current_page", JVal.jnum 1), ("retries", JVal.jnum 9),
              ("final_status", JVal.jstr "failed"),
              ("is_active", JVal.jbool false)],
         some 1, none⟩ := by decide

example :
    task_sync_recent_posts 3 (HttpOutcome.response 200 (some (JsonDoc.jarr [])))
      ⟨[], [("current_page", JVal.jnum 30), ("retries", JVal.jnum 2)], none⟩ =
    .ok ⟨[], [("current_page", JVal.jnum 1), ("retries", JVal.jnum 0)],
         some 3⟩ := by decide

end ScratchTests

lemma except_bind_ok {ε α β : Type} (a : α) (f : α → Except ε β) :
    (Except.ok a : Except ε α) >>= f = f a := rfl

lemma jlookup_eq_none_of_not_hasKey {b : JObj} {k : String}
    (h : hasKey b k = false) : jlookup b k = none := by
  unfold hasKey at h
  cases hl : jlookup b k <;> simp [hl] at h ⊢

lemma jlookup_jconcat (a b : JObj) (k : String) :
    jlookup (jconcat a b) k =
      if hasKey b k then jlookup b k else jlookup a k := by
  induction a with
  | nil =>
    cases h : hasKey b k
    · simp [jconcat, h, jlookup, jlookup_eq_none_of_not_hasKey h]
    · simp [jconcat, h]
  | cons p rest ih =>
    cases hpb : hasKey b p.1
    · show jlookup (if hasKey b p.1 then _ else p :: jconcat rest b) k = _
      rw [hpb]
      by_cases hk : p.1 = k
      · subst hk
        simp [jlookup, hpb]
      · simp [jlookup, hk, ih]
    · show jlookup (if hasKey b p.1 then jconcat rest b else _) k = _
      rw [hpb, if_pos rfl, ih]
      by_cases hk : p.1 = k
      · subst hk
        simp [hpb, jlookup]
      · simp [jlookup, hk]

lemma failureResp_transportError : FailureResp HttpOutcome.transportError :=
  fun _ _ => rfl

lemma failureResp_badBody (s : Nat) :
    FailureResp (HttpOutcome.response s none) :=
  fun _ _ => rfl

lemma emptyResp_nullBody (s : Nat) :
    EmptyResp (HttpOutcome.response s (some JsonDoc.jnull)) :=
  fun _ _ => rfl

lemma emptyResp_emptyArray (s : Nat) :
    EmptyResp (HttpOutcome.response s (some (JsonDoc.jarr []))) :=
  fun _ _ => rfl

lemma upsertPost_ok_of_id {item : JObj} {i : Int}
    (h : itemId item = .ok (some i)) (now : Nat) (t : PostsTable) :
    ∃ t', upsertPost now item t = .ok t' := by
  by_cases ha : t.any (fun p => p.1 = i)
  · exact ⟨_, by unfold upsertPost; rw [h]; simp [ha]; rfl⟩
  · exact ⟨_, by unfold upsertPost; rw [h]; simp [ha]; rfl⟩

lemma successResp_singleton (s : Nat) (n : Int) :
    SuccessResp (HttpOutcome.response s
      (some (JsonDoc.jarr [[("id", JVal.jnum n)]]))) := by
  intro now t
  have hid : itemId [("id", JVal.jnum n)] = .ok (some n) := rfl
  obtain ⟨t', ht'⟩ := upsertPost_ok_of_id hid now t
  refine ⟨1, t', ?_, by norm_num⟩
  simp [sync_posts_from_remote, upsertAll, ht', except_bind_ok]

lemma bf_tick_inactive {db : BackfillDb} {cp : Option Int} {r : Option Int}
    (h : bfReads db cp (some false) r) (now : Nat) (resp : HttpOutcome) :
    task_backfill_all_posts now resp db = .ok db := by
  obtain ⟨h1, h2, h3⟩ := h
  unfold task_backfill_all_posts
  rw [h1, except_bind_ok, h2, except_bind_ok, h3, except_bind_ok]
  simp

lemma bf_tick_failure_retry {db : BackfillDb} {cp : Option Int} {r : Int}
    (h : bfReads db cp (some true) (some r)) {resp : HttpOutcome}
    (hf : FailureResp resp) (hr : r + 1 < MAX_RETRIES_BACKFILL) (now : Nat) :
    task_backfill_all_posts now resp db =
      .ok { posts := db.posts
            state := jconcat db.state [("retries", JVal.jnum (r + 1))]
            lastRun := some now
            cron := some "5 minutes" } := by
  obtain ⟨h1, h2, h3⟩ := h
  unfold task_backfill_all_posts
  rw [h1, except_bind_ok, h2, except_bind_ok, h3, except_bind_ok,
    if_neg (by simp), hf now db.posts, except_bind_ok]
  have hr10 : r + 1 < 10 := by simpa [MAX_RETRIES_BACKFILL] using hr
  rw [if_neg (by norm_num), if_neg (by norm_num), if_pos rfl,
    if_neg (by simp [condTrue, MAX_RETRIES_BACKFILL]; omega)]
  simp [jnumOpt]

lemma bf_tick_failure_giveup {db : BackfillDb} {cp : Option Int} {r : Int}
    (h : bfReads db cp (some true) (some r)) {resp : HttpOutcome}
    (hf : FailureResp resp) (hr : r + 1 ≥ MAX_RETRIES_BACKFILL) (now : Nat) :
    task_backfill_all_posts now resp db =
      .ok { posts := db.posts
            state := jconcat db.state
              [("final_status", JVal.jstr "failed"),
               ("is_active", JVal.jbool false)]
            lastRun := some now
            cron := none } := by
  obtain ⟨h1, h2, h3⟩ := h
  unfold task_backfill_all_posts
  rw [h1, except_bind_ok, h2, except_bind_ok, h3, except_bind_ok,
    if_neg (by simp), hf now db.posts, except_bind_ok]
  have hr10 : 10 ≤ r + 1 := by simpa [MAX_RETRIES_BACKFILL] using hr
  rw [if_neg (by norm_num), if_neg (by norm_num), if_pos rfl,
    if_pos (by simp [condTrue, MAX_RETRIES_BACKFILL]; omega)]

lemma bf_tick_empty {db : BackfillDb} {cp : Option Int} {r : Option Int}
    (h : bfReads db cp (some true) r) {resp : HttpOutcome}
    (he : EmptyResp resp) (now : Nat) :
    task_backfill_all_posts now resp db =
      .ok { posts := db.posts
            state := jconcat db.state
              [("final_status", JVal.jstr "completed"),
               ("is_active", JVal.jbool false)]
            lastRun := some now
            cron := none } := by
  obtain ⟨h1, h2, h3⟩ := h
  unfold task_backfill_all_posts
  rw [h1, except_bind_ok, h2, except_bind_ok, h3, except_bind_ok,
    if_neg (by simp), he now db.posts, except_bind_ok]
  rw [if_neg (by norm_num), if_pos rfl]

lemma bf_tick_success {db : BackfillDb} {cp : Option Int} {r : Option Int}
    (h : bfReads db cp (some true) r) {resp : HttpOutcome} {c : Int}
    {t' : PostsTable} (now : Nat)
    (hs : sync_posts_from_remote now resp db.posts = .ok (c, t'))
    (hc : 0 < c) :
    task_backfill_all_posts now resp db =
      .ok { posts := t'
            state := jconcat db.state
              [("current_page", jnumOpt (cp.map (· + 1))),
               ("retries", JVal.jnum 0)]
            lastRun := some now
            cron := some "10 seconds" } := by
  obtain ⟨h1, h2, h3⟩ := h
  unfold task_backfill_all_posts
  rw [h1, except_bind_ok, h2, except_bind_ok, h3, except_bind_ok,
    if_neg (by simp), hs, except_bind_ok]
  rw [if_pos (by exact_mod_cast hc)]

lemma rec_tick_success {db : RecurringDb} {cp : Option Int} {r : Option Int}
    (h : recReads db cp r) {resp : HttpOutcome} {c : Int} {t' : PostsTable}
    (now : Nat)
    (hs : sync_posts_from_remote now resp db.posts = .ok (c, t'))
    (hc : 0 < c) :
    task_sync_recent_posts now resp db =
      .ok { posts := t'
            state := [("current_page", jnumOpt (nextPage cp)),
                      ("retries", JVal.jnum 0)]
            lastRun := some now } := by
  obtain ⟨h1, h2⟩ := h
  unfold task_sync_recent_posts
  rw [h1, except_bind_ok, h2, except_bind_ok, hs, except_bind_ok]
  rw [if_pos (by exact_mod_cast hc)]

lemma rec_tick_empty {db : RecurringDb} {cp : Option Int} {r : Option Int}
    (h : recReads db cp r) {resp : HttpOutcome} (he : EmptyResp resp)
    (now : Nat) :
    task_sync_recent_posts now resp db =
      .ok { posts := db.posts
            state := [("current_page", jnumOpt (nextPage cp)),
                      ("retries", JVal.jnum 0)]
            lastRun := some now } := by
  obtain ⟨h1, h2⟩ := h
  unfold task_sync_recent_posts
  rw [h1, except_bind_ok, h2, except_bind_ok, he now db.posts, except_bind_ok]
  rw [if_neg (by norm_num), if_pos rfl]

lemma rec_tick_failure_retry {db : RecurringDb} {cp : Option Int} {r : Int}
    (h : recReads db cp (some r)) {resp : HttpOutcome}
    (hf : FailureResp resp) (hr : r + 1 < MAX_RETRIES_RECURRING) (now : Nat) :
    task_sync_recent_posts now resp db =
      .ok { posts := db.posts
            state := jconcat db.state [("retries", JVal.jnum (r + 1))]
            lastRun := some now } := by
  obtain ⟨h1, h2⟩ := h
  unfold task_sync_recent_posts
  rw [h1, except_bind_ok, h2, except_bind_ok, hf now db.posts, except_bind_ok]
  have hr5 : r + 1 < 5 := by simpa [MAX_RETRIES_RECURRING] using hr
  rw [if_neg (by norm_num), if_neg (by norm_num), if_pos rfl,
    if_neg (by simp [condTrue, MAX_RETRIES_RECURRING]; omega)]
  simp [jnumOpt]

lemma rec_tick_failure_giveup {db : RecurringDb} {cp : Option Int} {r : Int}
    (h : recReads db cp (some r)) {resp : HttpOutcome}
    (hf : FailureResp resp) (hr : r + 1 ≥ MAX_RETRIES_RECURRING) (now : Nat) :
    task_sync_recent_posts now resp db =
      .ok { posts := db.posts
            state := [("current_page", jnumOpt (nextPage cp)),
                      ("retries", JVal.jnum 0)]
            lastRun := some now } := by
  obtain ⟨h1, h2⟩ := h
  unfold task_sync_recent_posts
  rw [h1, except_bind_ok, h2, except_bind_ok, hf now db.posts, except_bind_ok]
  have hr5 : 5 ≤ r + 1 := by simpa [MAX_RETRIES_RECURRING] using hr
  rw [if_neg (by norm_num), if_neg (by norm_num), if_pos rfl,
    if_pos (by simp [condTrue, MAX_RETRIES_RECURRING]; omega)]

lemma jlookup_jconcat_right {b : JObj} {k : String} (st : JObj)
    (h : hasKey b k = true) : jlookup (jconcat st b) k = jlookup b k := by
  rw [jlookup_jconcat, if_pos h]

lemma jlookup_jconcat_left {b : JObj} {k : String} (st : JObj)
    (h : hasKey b k = false) : jlookup (jconcat st b) k = jlookup st k := by
  rw [jlookup_jconcat, h]
  simp

example : hasKey [("final_status", JVal.jstr "failed"),
    ("is_active", JVal.jbool false)] "retries" = false := by
  simp [hasKey, jlookup]

example (v : JVal) : hasKey [("retries", v)] "current_page" = false := by
  simp [hasKey, jlookup]

/-- Merging `{"retries": r+1}` into the state preserves the other reads:
readiness of the post-retry row. -/
lemma bfReads_after_retry {db : BackfillDb} {cp : Option Int}
    {act : Option Bool} {r : Int} (h : bfReads db cp act (some r))
    (p2 : PostsTable) (lr2 : Option Nat) (cr2 : Option String) :
    bfReads ⟨p2, jconcat db.state [("retries", JVal.jnum (r + 1))], lr2, cr2⟩
      cp act (some (r + 1)) := by
  obtain ⟨h1, h2, h3⟩ := h
  refine ⟨?_, ?_, ?_⟩
  · show castTextInt
      (jlookup (jconcat db.state [("retries", JVal.jnum (r + 1))])
        "current_page") = _
    rw [jlookup_jconcat_left db.state (by simp [hasKey, jlookup])]
    exact h1
  · show castTextBool
      (jlookup (jconcat db.state [("retries", JVal.jnum (r + 1))])
        "is_active") = _
    rw [jlookup_jconcat_left db.state (by simp [hasKey, jlookup])]
    exact h2
  · show castTextInt
      (jlookup (jconcat db.state [("retries", JVal.jnum (r + 1))])
        "retries") = _
    rw [jlookup_jconcat_right db.state (by simp [hasKey, jlookup])]
    simp [jlookup, castTextInt]

/-- A run of `n` consecutive `Failure` ticks of the backfill job, all within
the retry budget, increments `retries` by one per tick and leaves the posts
table, the cursor and the active flag untouched. -/
lemma bf_run_failures (ticks : List (Nat × HttpOutcome)) :
    ∀ (db : BackfillDb) (cp : Option Int) (r : Int),
    (∀ x ∈ ticks, FailureResp x.2) →
    bfReads db cp (some true) (some r) →
    r + ticks.length ≤ 9 →
    ∃ db' : BackfillDb, backfillRun ticks db = .ok db' ∧
      bfReads db' cp (some true) (some (r + ticks.length)) ∧
      db'.posts = db.posts ∧
      jlookup db'.state "current_page" = jlookup db.state "current_page" ∧
      jlookup db'.state "is_active" = jlookup db.state "is_active" := by
  induction ticks with
  | nil =>
    intro db cp r _ hr _
    exact ⟨db, rfl, by simpa using hr, rfl, rfl, rfl⟩
  | cons x rest ih =>
    intro db cp r hf hr hb
    obtain ⟨now, resp⟩ := x
    have hlt : r + 1 < MAX_RETRIES_BACKFILL := by
      unfold MAX_RETRIES_BACKFILL
      simp at hb
      omega
    have htick := bf_tick_failure_retry hr (hf _ (List.mem_cons_self _ _)) hlt now
    have hr1 := bfReads_after_retry hr db.posts (some now) (some "5 minutes")
    have hb1 : (r + 1) + rest.length ≤ 9 := by
      simp at hb
      omega
    obtain ⟨db', hrun, hreads, hposts, hcp, hact⟩ :=
      ih _ cp (r + 1) (fun y hy => hf y (List.mem_cons_of_mem _ hy)) hr1 hb1
    refine ⟨db', ?_, ?_, ?_, ?_, ?_⟩
    · show backfillRun ((now, resp) :: rest) db = .ok db'
      unfold backfillRun
      rw [htick, except_bind_ok]
      exact hrun
    · have : r + 1 + (rest.length : Int) = r + ((rest.length : Int) + 1) := by
        omega
      simpa [this] using hreads
    · simpa using hposts
    · calc jlookup db'.state "current_page"
          = jlookup (jconcat db.state [("retries", JVal.jnum (r + 1))])
              "current_page" := hcp
        _ = jlookup db.state "current_page" :=
            jlookup_jconcat_left db.state (by simp [hasKey, jlookup])
    · calc jlookup db'.state "is_active"
          = jlookup (jconcat db.state [("retries", JVal.jnum (r + 1))])
              "is_active" := hact
        _ = jlookup db.state "is_active" :=
            jlookup_jconcat_left db.state (by simp [hasKey, jlookup])

lemma recReads_after_retry {db : RecurringDb} {cp : Option Int} {r : Int}
    (h : recReads db cp (some r)) (p2 : PostsTable) (lr2 : Option Nat) :
    recReads ⟨p2, jconcat db.state [("retries", JVal.jnum (r + 1))], lr2⟩
      cp (some (r + 1)) := by
  obtain ⟨h1, h2⟩ := h
  constructor
  · show castTextInt
      (jlookup (jconcat db.state [("retries", JVal.jnum (r + 1))])
        "current_page") = _
    rw [jlookup_jconcat_left db.state (by simp [hasKey, jlookup])]
    exact h1
  · show castTextInt
      (jlookup (jconcat db.state [("retries", JVal.jnum (r + 1))])
        "retries") = _
    rw [jlookup_jconcat_right db.state (by simp [hasKey, jlookup])]
    simp [jlookup, castTextInt]

/-- A run of consecutive `Failure` ticks of the recurring job, all within the
retry budget, increments `retries` by one per tick and leaves the posts table
and the cursor untouched. -/
lemma rec_run_failures (ticks : List (Nat × HttpOutcome)) :
    ∀ (db : RecurringDb) (cp : Option Int) (r : Int),
    (∀ x ∈ ticks, FailureResp x.2) →
    recReads db cp (some r) →
    r + ticks.length ≤ 4 →
    ∃ db' : RecurringDb, recurringRun ticks db = .ok db' ∧
      recReads db' cp (some (r + ticks.length)) ∧
      db'.posts = db.posts ∧
      jlookup db'.state "current_page" = jlookup db.state "current_page" := by
  induction ticks with
  | nil =>
    intro db cp r _ hr _
    exact ⟨db, rfl, by simpa using hr, rfl, rfl⟩
  | cons x rest ih =>
    intro db cp r hf hr hb
    obtain ⟨now, resp⟩ := x
    have hlt : r + 1 < MAX_RETRIES_RECURRING := by
      unfold MAX_RETRIES_RECURRING
      simp at hb
      omega
    have htick := rec_tick_failure_retry hr (hf _ (List.mem_cons_self _ _)) hlt now
    have hr1 := recReads_after_retry hr db.posts (some now)
    have hb1 : (r + 1) + rest.length ≤ 4 := by
      simp at hb
      omega
    obtain ⟨db', hrun, hreads, hposts, hcp⟩ :=
      ih _ cp (r + 1) (fun y hy => hf y (List.mem_cons_of_mem _ hy)) hr1 hb1
    refine ⟨db', ?_, ?_, ?_, ?_⟩
    · show recurringRun ((now, resp) :: rest) db = .ok db'
      unfold recurringRun
      rw [htick, except_bind_ok]
      exact hrun
    · have : r + 1 + (rest.length : Int) = r + ((rest.length : Int) + 1) := by
        omega
      simpa [this] using hreads
    · simpa using hposts
    · calc jlookup db'.state "current_page"
          = jlookup (jconcat db.state [("retries", JVal.jnum (r + 1))])
              "current_page" := hcp
        _ = jlookup db.state "current_page" :=
            jlookup_jconcat_left db.state (by simp [hasKey, jlookup])

lemma recReads_recState {p : PostsTable} {lr : Option Nat} {c : Int} :
    recReads ⟨p, recState c, lr⟩ (some c) (some 0) := by
  constructor
  · show castTextInt (jlookup (recState c) "current_page") = _
    simp [recState, jlookup, castTextInt]
  · show castTextInt (jlookup (recState c) "retries") = _
    simp [recState, jlookup, castTextInt]

lemma recReads_of_state_eq {db : RecurringDb} {c : Int}
    (h : db.state = recState c) : recReads db (some c) (some 0) := by
  constructor
  · show castTextInt (jlookup db.state "current_page") = _
    rw [h]
    simp [recState, jlookup, castTextInt]
  · show castTextInt (jlookup db.state "retries") = _
    rw [h]
    simp [recState, jlookup, castTextInt]

lemma nextCursor_arith (k : Nat) :
    (((k : Int) % 30) + 1).tmod 30 + 1 = (((k + 1 : Nat) : Int) % 30) + 1 := by
  have hnn : (0 : Int) ≤ (k : Int) % 30 := Int.emod_nonneg _ (by norm_num)
  rw [Int.tmod_eq_emod (by omega) (by norm_num)]
  push_cast
  omega

/-- A run of consecutive `Success`-or-`Empty` ticks of the recurring job,
starting from the canonical state with cursor `(k % 30) + 1`: after the run
the cursor is `((k + n) % 30) + 1` where `n` is the number of ticks. -/
lemma rec_run_successes (ticks : List (Nat × HttpOutcome)) :
    ∀ (k : Nat) (db : RecurringDb),
    (∀ x ∈ ticks, SuccessResp x.2 ∨ EmptyResp x.2) →
    db.state = recState (((k : Int) % 30) + 1) →
    ∃ db', recurringRun ticks db = .ok db' ∧
      db'.state = recState ((((k + ticks.length : Nat) : Int) % 30) + 1) := by
  induction ticks with
  | nil =>
    intro k db _ hstate
    exact ⟨db, rfl, by simpa using hstate⟩
  | cons x rest ih =>
    intro k db hok hstate
    obtain ⟨now, resp⟩ := x
    have hreads := recReads_of_state_eq hstate
    have hstate1 :
        ∀ p1 lr1, (RecurringDb.mk p1
            [("current_page", jnumOpt (nextPage (some (((k : Int) % 30) + 1)))),
             ("retries", JVal.jnum 0)] lr1).state =
          recState (((((k + 1) : Nat) : Int) % 30) + 1) := by
      intro p1 lr1
      show [("current_page", jnumOpt (some ((((k : Int) % 30) + 1).tmod 30 + 1))),
            ("retries", JVal.jnum 0)] = _
      rw [nextCursor_arith k]
      rfl
    have hcount : (k + (rest.length + 1) : Nat) = ((k + 1) + rest.length : Nat) := by
      omega
    rcases hok _ (List.mem_cons_self _ _) with hsucc | hempty
    · obtain ⟨cnt, t', hs, hcnt⟩ := hsucc now db.posts
      have htick := rec_tick_success hreads now hs hcnt
      obtain ⟨db', hrun, hst⟩ :=
        ih (k + 1) _ (fun y hy => hok y (List.mem_cons_of_mem _ hy)) (hstate1 t' (some now))
      refine ⟨db', ?_, ?_⟩
      · show recurringRun ((now, resp) :: rest) db = .ok db'
        unfold recurringRun
        rw [htick, except_bind_ok]
        exact hrun
      · rw [hst]
        simp [hcount]
    · have htick := rec_tick_empty hreads hempty now
      obtain ⟨db', hrun, hst⟩ :=
        ih (k + 1) _ (fun y hy => hok y (List.mem_cons_of_mem _ hy))
          (hstate1 db.posts (some now))
      refine ⟨db', ?_, ?_⟩
      · show recurringRun ((now, resp) :: rest) db = .ok db'
        unfold recurringRun
        rw [htick, except_bind_ok]
        exact hrun
      · rw [hst]
        simp [hcount]

lemma backfillRun_append (a b : List (Nat × HttpOutcome)) (db : BackfillDb) :
    backfillRun (a ++ b) db =
      (backfillRun a db) >>= backfillRun b := by
  induction a generalizing db with
  | nil => rfl
  | cons x rest ih =>
    obtain ⟨now, resp⟩ := x
    show (task_backfill_all_posts now resp db >>= backfillRun (rest ++ b)) =
      (task_backfill_all_posts now resp db >>= backfillRun rest) >>= backfillRun b
    cases task_backfill_all_posts now resp db with
    | error e => rfl
    | ok db1 => rw [except_bind_ok, except_bind_ok, ih db1]

lemma recurringRun_append (a b : List (Nat × HttpOutcome)) (db : RecurringDb) :
    recurringRun (a ++ b) db =
      (recurringRun a db) >>= recurringRun b := by
  induction a generalizing db with
  | nil => rfl
  | cons x rest ih =>
    obtain ⟨now, resp⟩ := x
    show (task_sync_recent_posts now resp db >>= recurringRun (rest ++ b)) =
      (task_sync_recent_posts now resp db >>= recurringRun rest) >>= recurringRun b
    cases task_sync_recent_posts now resp db with
    | error e => rfl
    | ok db1 => rw [except_bind_ok, except_bind_ok, ih db1]

lemma backfillRun_fixpoint {db : BackfillDb}
    (h : ∀ now resp, task_backfill_all_posts now resp db = .ok db) :
    ∀ ticks, backfillRun ticks db = .ok db := by
  intro ticks
  induction ticks with
  | nil => rfl
  | cons x rest ih =>
    obtain ⟨now, resp⟩ := x
    show (task_backfill_all_posts now resp db >>= backfillRun rest) = _
    rw [h now resp, except_bind_ok]
    exact ih

/-- C1: for the Backfill job starting from `retries = 0`, with
`MAX_RETRIES = 10`: after 9 (= MAX_RETRIES - 1) consecutive `Failure` ticks
the job still reads `active = true`, and the 10th (= MAX_RETRIES-th)
consecutive `Failure` tick sets `active = false`, `final_status = failed`
and unschedules the job. -/
theorem claim_C1_backfill_giveup (db : BackfillDb) (cp : Option Int)
    (h : bfReads db cp (some true) (some 0))
    (ticks9 : List (Nat × HttpOutcome)) (h9 : ticks9.length = 9)
    (hf9 : ∀ x ∈ ticks9, FailureResp x.2)
    (now10 : Nat) (resp10 : HttpOutcome) (hf10 : FailureResp resp10) :
    ∃ db9, backfillRun ticks9 db = .ok db9 ∧
      castTextBool (jlookup db9.state "is_active") = .ok (some true) ∧
      ∃ db10, task_backfill_all_posts now10 resp10 db9 = .ok db10 ∧
        jlookup db10.state "is_active" = some (JVal.jbool false) ∧
        jlookup db10.state "final_status" = some (JVal.jstr "failed") ∧
        db10.cron = none := by
  obtain ⟨db9, hrun, hreads9, hposts, hcp, hact⟩ :=
    bf_run_failures ticks9 db cp 0 hf9 h (by rw [h9]; norm_num)
  refine ⟨db9, hrun, hreads9.2.1, ?_⟩
  have hreads9' : bfReads db9 cp (some true) (some 9) := by
    rw [h9] at hreads9
    simpa using hreads9
  have htick := bf_tick_failure_giveup hreads9' hf10
    (by norm_num [MAX_RETRIES_BACKFILL]) now10
  refine ⟨_, htick, ?_, ?_, rfl⟩
  · show jlookup (jconcat db9.state
      [("final_status", JVal.jstr "failed"),
       ("is_active", JVal.jbool false)]) "is_active" = _
    rw [jlookup_jconcat_right db9.state (by simp [hasKey, jlookup])]
    simp [jlookup]
  · show jlookup (jconcat db9.state
      [("final_status", JVal.jstr "failed"),
       ("is_active", JVal.jbool false)]) "final_status" = _
    rw [jlookup_jconcat_right db9.state (by simp [hasKey, jlookup])]
    simp [jlookup]

/-- C7: for N consecutive `Failure` ticks with N below the retry budget,
starting from `retries = 0`: each tick increases `retries` by exactly one,
leaving the posts table, `current_page` and `is_active` unchanged for the
Backfill job (N < 10), and leaving the posts table and `current_page`
unchanged for the Recurring job (N < 5).  Stated for every prefix
`take k` of the failing run. -/
theorem claim_C7_retry_monotonicity
    (db : BackfillDb) (rdb : RecurringDb) (cp rcp : Option Int)
    (hbf : bfReads db cp (some true) (some 0))
    (hrec : recReads rdb rcp (some 0))
    (ticksB ticksR : List (Nat × HttpOutcome))
    (hfB : ∀ x ∈ ticksB, FailureResp x.2)
    (hfR : ∀ x ∈ ticksR, FailureResp x.2)
    (hnB : ticksB.length < 10) (hnR : ticksR.length < 5) :
    (∀ k ≤ ticksB.length, ∃ dbk, backfillRun (ticksB.take k) db = .ok dbk ∧
      castTextInt (jlookup dbk.state "retries") = .ok (some (k : Int)) ∧
      jlookup dbk.state "current_page" = jlookup db.state "current_page" ∧
      jlookup dbk.state "is_active" = jlookup db.state "is_active" ∧
      dbk.posts = db.posts) ∧
    (∀ k ≤ ticksR.length, ∃ dbk, recurringRun (ticksR.take k) rdb = .ok dbk ∧
      castTextInt (jlookup dbk.state "retries") = .ok (some (k : Int)) ∧
      jlookup dbk.state "current_page" = jlookup rdb.state "current_page" ∧
      dbk.posts = rdb.posts) := by
  constructor
  · intro k hk
    have hlen : (ticksB.take k).length = k := by
      rw [List.length_take]
      omega
    obtain ⟨dbk, hrun, hreads, hposts, hcp, hact⟩ :=
      bf_run_failures (ticksB.take k) db cp 0
        (fun x hx => hfB x (List.take_subset _ _ hx)) hbf
        (by rw [hlen]; omega)
    refine ⟨dbk, hrun, ?_, hcp, hact, hposts⟩
    rw [hlen] at hreads
    simpa using hreads.2.2
  · intro k hk
    have hlen : (ticksR.take k).length = k := by
      rw [List.length_take]
      omega
    obtain ⟨dbk, hrun, hreads, hposts, hcp⟩ :=
      rec_run_failures (ticksR.take k) rdb rcp 0
        (fun x hx => hfR x (List.take_subset _ _ hx)) hrec
        (by rw [hlen]; omega)
    refine ⟨dbk, hrun, ?_, hcp, hposts⟩
    rw [hlen] at hreads
    simpa using hreads.2

/-- C2: an `Empty` result on an active Backfill tick always sets
`active = false` and `final_status = completed` and unschedules the job,
and afterwards no tick mutates anything: a tick that loads `active = false`
performs no fetch (the outcome is irrelevant), no state write and no
reschedule — it leaves the whole row untouched. -/
theorem claim_C2_backfill_termination :
    (∀ (db : BackfillDb) (cp : Option Int) (r : Option Int),
      bfReads db cp (some true) r →
      ∀ resp, EmptyResp resp → ∀ now,
      ∃ db', task_backfill_all_posts now resp db = .ok db' ∧
        jlookup db'.state "is_active" = some (JVal.jbool false) ∧
        jlookup db'.state "final_status" = some (JVal.jstr "completed") ∧
        db'.cron = none ∧ db'.posts = db.posts ∧
        ∀ ticks, backfillRun ticks db' = .ok db') ∧
    (∀ (db : BackfillDb) (cp : Option Int) (r : Option Int),
      bfReads db cp (some false) r →
      ∀ now resp, task_backfill_all_posts now resp db = .ok db) := by
  constructor
  · intro db cp r h resp he now
    have htick := bf_tick_empty h he now
    refine ⟨_, htick, ?_, ?_, rfl, rfl, ?_⟩
    · show jlookup (jconcat db.state
        [("final_status", JVal.jstr "completed"),
         ("is_active", JVal.jbool false)]) "is_active" = _
      rw [jlookup_jconcat_right db.state (by simp [hasKey, jlookup])]
      simp [jlookup]
    · show jlookup (jconcat db.state
        [("final_status", JVal.jstr "completed"),
         ("is_active", JVal.jbool false)]) "final_status" = _
      rw [jlookup_jconcat_right db.state (by simp [hasKey, jlookup])]
      simp [jlookup]
    · obtain ⟨h1, h2, h3⟩ := h
      have hreads' : bfReads
          ⟨db.posts, jconcat db.state
            [("final_status", JVal.jstr "completed"),
             ("is_active", JVal.jbool false)], some now, none⟩
          cp (some false) r := by
        refine ⟨?_, ?_, ?_⟩
        · show castTextInt (jlookup (jconcat db.state _) "current_page") = _
          rw [jlookup_jconcat_left db.state (by simp [hasKey, jlookup])]
          exact h1
        · show castTextBool (jlookup (jconcat db.state _) "is_active") = _
          rw [jlookup_jconcat_right db.state (by simp [hasKey, jlookup])]
          simp [jlookup, castTextBool]
        · show castTextInt (jlookup (jconcat db.state _) "retries") = _
          rw [jlookup_jconcat_left db.state (by simp [hasKey, jlookup])]
          exact h3
      exact backfillRun_fixpoint (fun now2 resp2 => bf_tick_inactive hreads' now2 resp2)
  · intro db cp r h now resp
    exact bf_tick_inactive h now resp

/-- C3: every Success tick (and every Empty tick, treated as success) of the
Recurring job advances the cursor to `(cursor mod 30) + 1`; starting from
cursor 1, a run of `n` such ticks ends with cursor `(n mod 30) + 1`, so the
pages are visited cyclically `1 → 2 → … → 30 → 1 → …` with no skips or
duplicates, and the cursor stays in `[1, 30]`. -/
theorem claim_C3_recurring_wraparound :
    (∀ (db : RecurringDb) (c : Int) (r : Option Int), recReads db (some c) r →
      ∀ now resp cnt t',
        sync_posts_from_remote now resp db.posts = .ok (cnt, t') → 0 < cnt →
        ∃ db', task_sync_recent_posts now resp db = .ok db' ∧
          jlookup db'.state "current_page" =
            some (JVal.jnum (Int.tmod c 30 + 1))) ∧
    (∀ (db : RecurringDb) (c : Int) (r : Option Int), recReads db (some c) r →
      ∀ now resp, EmptyResp resp →
      ∃ db', task_sync_recent_posts now resp db = .ok db' ∧
        jlookup db'.state "current_page" =
          some (JVal.jnum (Int.tmod c 30 + 1))) ∧
    (∀ (ticks : List (Nat × HttpOutcome)) (db : RecurringDb),
      (∀ x ∈ ticks, SuccessResp x.2 ∨ EmptyResp x.2) →
      db.state = recState 1 →
      ∃ db', recurringRun ticks db = .ok db' ∧
        db'.state = recState (((ticks.length : Int) % 30) + 1) ∧
        1 ≤ ((ticks.length : Int) % 30) + 1 ∧
        ((ticks.length : Int) % 30) + 1 ≤ 30) := by
  refine ⟨?_, ?_, ?_⟩
  · intro db c r h now resp cnt t' hs hc
    refine ⟨_, rec_tick_success h now hs hc, ?_⟩
    show jlookup [("current_page", jnumOpt (nextPage (some c))),
      ("retries", JVal.jnum 0)] "current_page" = _
    simp [jlookup, nextPage, jnumOpt]
  · intro db c r h now resp he
    refine ⟨_, rec_tick_empty h he now, ?_⟩
    show jlookup [("current_page", jnumOpt (nextPage (some c))),
      ("retries", JVal.jnum 0)] "current_page" = _
    simp [jlookup, nextPage, jnumOpt]
  · intro ticks db hok hstate
    obtain ⟨db', hrun, hst⟩ := rec_run_successes ticks 0 db hok (by simpa using hstate)
    have hnn : (0 : Int) ≤ (ticks.length : Int) % 30 :=
      Int.emod_nonneg _ (by norm_num)
    have hlt : (ticks.length : Int) % 30 < 30 :=
      Int.emod_lt_of_pos _ (by norm_num)
    exact ⟨db', hrun, by simpa using hst, by omega, by omega⟩

/-- C4: a `Failure` tick of the Recurring job with `retries + 1 ≥ 5` resets
`retries` to 0 and advances the cursor to `(cursor mod 30) + 1`; from any
at-rest state (`0 ≤ retries ≤ 4`) the cursor has advanced after at most 5
consecutive `Failure` ticks on the same page — the job is never stuck.  The
at-rest bound `0 ≤ retries ≤ 4` is an invariant of every successful tick
(third conjunct), so it holds in every state reachable from the seed. -/
theorem claim_C4_recurring_self_healing :
    (∀ (db : RecurringDb) (c r : Int), recReads db (some c) (some r) →
      ∀ resp, FailureResp resp → r + 1 ≥ MAX_RETRIES_RECURRING → ∀ now,
      task_sync_recent_posts now resp db =
        .ok ⟨db.posts, recState (Int.tmod c 30 + 1), some now⟩) ∧
    (∀ (db : RecurringDb) (c r : Int), recReads db (some c) (some r) →
      0 ≤ r → r ≤ 4 →
      ∃ k, k ≤ 5 ∧ ∀ (ticks : List (Nat × HttpOutcome)), ticks.length = k →
        (∀ x ∈ ticks, FailureResp x.2) →
        ∃ db', recurringRun ticks db = .ok db' ∧
          db'.state = recState (Int.tmod c 30 + 1) ∧
          db'.posts = db.posts) ∧
    (∀ (db db' : RecurringDb) (cp : Option Int) (r : Int),
      recReads db cp (some r) → 0 ≤ r → r ≤ 4 →
      ∀ now resp, task_sync_recent_posts now resp db = .ok db' →
      ∃ r2, castTextInt (jlookup db'.state "retries") = .ok (some r2) ∧
        0 ≤ r2 ∧ r2 ≤ 4) := by
  refine ⟨?_, ?_, ?_⟩
  · intro db c r h resp hf hge now
    rw [rec_tick_failure_giveup h hf hge now]
    simp [nextPage, jnumOpt, recState]
  · intro db c r h h0 h4
    refine ⟨(4 - r).toNat + 1, by omega, ?_⟩
    intro ticks hlen hf
    have hmlen : (ticks.take (4 - r).toNat).length = (4 - r).toNat := by
      rw [List.length_take]
      omega
    obtain ⟨db1, hrun1, hreads1, hposts1, _⟩ :=
      rec_run_failures (ticks.take (4 - r).toNat) db (some c) r
        (fun x hx => hf x (List.take_subset _ _ hx)) h
        (by rw [hmlen]; omega)
    have hreads1' : recReads db1 (some c) (some 4) := by
      rw [hmlen] at hreads1
      have : r + ((4 - r).toNat : Int) = 4 := by omega
      rwa [this] at hreads1
    obtain ⟨x, hx⟩ :=
      List.length_eq_one.mp
        (by rw [List.length_drop, hlen]; omega :
          (ticks.drop (4 - r).toNat).length = 1)
    obtain ⟨nx, rx⟩ := x
    have hfx : FailureResp rx := by
      have : (nx, rx) ∈ ticks := by
        have := List.drop_subset (4 - r).toNat ticks
        rw [hx] at this
        exact this (List.mem_singleton_self _)
      exact hf _ this
    have htick := rec_tick_failure_giveup hreads1' hfx
      (by norm_num [MAX_RETRIES_RECURRING]) nx
    have hsplit : ticks = ticks.take (4 - r).toNat ++ [(nx, rx)] := by
      rw [← hx, List.take_append_drop]
    refine ⟨⟨db1.posts, [("current_page", jnumOpt (nextPage (some c))),
        ("retries", JVal.jnum 0)], some nx⟩, ?_, ?_, ?_⟩
    · rw [hsplit, recurringRun_append, hrun1, except_bind_ok]
      show (task_sync_recent_posts nx rx db1 >>= recurringRun []) = _
      rw [htick, except_bind_ok]
      rfl
    · simp [nextPage, jnumOpt, recState]
    · simpa using hposts1
  · intro db db' cp r h h0 h4 now resp htick
    obtain ⟨h1, h2⟩ := h
    unfold task_sync_recent_posts at htick
    rw [h1, except_bind_ok, h2, except_bind_ok] at htick
    cases hs : sync_posts_from_remote now resp db.posts with
    | error e =>
      rw [hs] at htick
      exact absurd htick (by simp [Bind.bind, Except.bind])
    | ok v =>
      rw [hs, except_bind_ok] at htick
      dsimp only at htick
      split_ifs at htick with hgt hz hneg hcond
      · injection htick with h'
        subst h'
        exact ⟨0, by simp [jlookup, castTextInt], by norm_num, by norm_num⟩
      · injection htick with h'
        subst h'
        exact ⟨0, by simp [jlookup, castTextInt], by norm_num, by norm_num⟩
      · injection htick with h'
        subst h'
        exact ⟨0, by simp [jlookup, castTextInt], by norm_num, by norm_num⟩
      · injection htick with h'
        subst h'
        have hr5 : r + 1 < 5 := by
          have := hcond
          simp [condTrue, MAX_RETRIES_RECURRING] at this
          omega
        refine ⟨r + 1, ?_, by omega, by omega⟩
        show castTextInt (jlookup (jconcat db.state
          [("retries", jnumOpt (Option.map (fun x => x + 1) (some r)))])
          "retries") = _
        rw [jlookup_jconcat_right db.state (by simp [hasKey, jlookup])]
        simp [jlookup, castTextInt, jnumOpt]

/-- C5 counterexample: a non-success HTTP status (500) whose body decodes to
an (empty) JSON array is *not* reported as `Failure`: the Fetcher returns 0
(`Empty`), because `sync_posts_from_remote` never inspects the status code. -/
theorem claim_C5_counterexample :
    sync_posts_from_remote 0
        (HttpOutcome.response 500 (some (JsonDoc.jarr []))) [] =
      .ok (0, []) ∧ (0 : Int) ≠ -1 := by
  constructor
  · rfl
  · decide

/-- C5 amended: the Fetcher returns `Failure` (-1), with no writes and
without raising, on every transport error and on every body that fails to
decode as JSON; the HTTP status code is never inspected — the result of a
delivered response is determined by its body alone. -/
theorem claim_C5_amended_fetcher_failure :
    (∀ now t,
      sync_posts_from_remote now HttpOutcome.transportError t = .ok (-1, t)) ∧
    (∀ now s t,
      sync_posts_from_remote now (HttpOutcome.response s none) t =
        .ok (-1, t)) ∧
    (∀ now s1 s2 body t,
      sync_posts_from_remote now (HttpOutcome.response s1 body) t =
        sync_posts_from_remote now (HttpOutcome.response s2 body) t) := by
  refine ⟨fun _ _ => rfl, fun _ _ _ => rfl, fun now s1 s2 body t => ?_⟩
  cases body with
  | none => rfl
  | some doc => cases doc <;> rfl

/-- C6 counterexample: a Backfill tick that loads `active = false` returns
before the `last_run_at` update on line 79, so `last_run_at` is *not*
updated on that tick (it stays `none` instead of becoming the tick time). -/
theorem claim_C6_counterexample :
    task_backfill_all_posts 1 HttpOutcome.transportError
        ⟨[], [("current_page", JVal.jnum 3), ("retries", JVal.jnum 2),
              ("is_active", JVal.jbool false)], none, none⟩ =
      .ok ⟨[], [("current_page", JVal.jnum 3), ("retries", JVal.jnum 2),
                ("is_active", JVal.jbool false)], none, none⟩ ∧
    (none : Option Nat) ≠ some 1 := by
  constructor
  · rfl
  · decide

/-- C6 amended: `last_run_at` is updated to the tick time on every Backfill
tick that passes the active check and completes (every branch of the CASE),
but a tick that loads `active = false` returns early and leaves the whole
row — including `last_run_at` — unchanged. -/
theorem claim_C6_amended_last_run (db : BackfillDb) (cp : Option Int)
    (b : Bool) (r : Option Int) (h : bfReads db cp (some b) r)
    (now : Nat) (resp : HttpOutcome) (db' : BackfillDb)
    (htick : task_backfill_all_posts now resp db = .ok db') :
    (b = true → db'.lastRun = some now) ∧ (b = false → db' = db) := by
  obtain ⟨h1, h2, h3⟩ := h
  cases b with
  | false =>
    rw [bf_tick_inactive ⟨h1, h2, h3⟩ now resp] at htick
    refine ⟨fun hb => by simp at hb, fun _ => ?_⟩
    injection htick with h'
    exact h'.symm
  | true =>
    refine ⟨fun _ => ?_, fun hb => by simp at hb⟩
    unfold task_backfill_all_posts at htick
    rw [h1, except_bind_ok, h2, except_bind_ok, h3, except_bind_ok,
      if_neg (by simp)] at htick
    cases hs : sync_posts_from_remote now resp db.posts with
    | error e =>
      rw [hs] at htick
      exact absurd htick (by simp [Bind.bind, Except.bind])
    | ok v =>
      rw [hs, except_bind_ok] at htick
      dsimp only at htick
      split_ifs at htick
      all_goals
        injection htick with h'
        rw [← h']

/-- C10: in the Recurring job, the failure-retry branch merges
`{"retries": retries + 1}` into the existing state object with `||`,
preserving `current_page` and every other key, while the Success, Empty and
give-up branches replace the state wholesale by a `jsonb_build_object` with
exactly the two keys `current_page` and `retries`, discarding any other
keys. -/
theorem claim_C10_recurring_state_shape (db : RecurringDb) (cp : Option Int)
    (r : Int) (h : recReads db cp (some r)) :
    (∀ now resp, FailureResp resp → r + 1 < MAX_RETRIES_RECURRING →
      ∃ db', task_sync_recent_posts now resp db = .ok db' ∧
        db'.state = jconcat db.state [("retries", JVal.jnum (r + 1))] ∧
        jlookup db'.state "retries" = some (JVal.jnum (r + 1)) ∧
        ∀ k, k ≠ "retries" → jlookup db'.state k = jlookup db.state k) ∧
    (∀ now resp cnt t',
      sync_posts_from_remote now resp db.posts = .ok (cnt, t') → 0 < cnt →
      ∃ db', task_sync_recent_posts now resp db = .ok db' ∧
        ∃ v, db'.state = [("current_page", v), ("retries", JVal.jnum 0)]) ∧
    (∀ now resp, EmptyResp resp →
      ∃ db', task_sync_recent_posts now resp db = .ok db' ∧
        ∃ v, db'.state = [("current_page", v), ("retries", JVal.jnum 0)]) ∧
    (∀ now resp, FailureResp resp → r + 1 ≥ MAX_RETRIES_RECURRING →
      ∃ db', task_sync_recent_posts now resp db = .ok db' ∧
        ∃ v, db'.state = [("current_page", v), ("retries", JVal.jnum 0)]) := by
  refine ⟨?_, ?_, ?_, ?_⟩
  · intro now resp hf hlt
    refine ⟨_, rec_tick_failure_retry h hf hlt now, rfl, ?_, ?_⟩
    · show jlookup (jconcat db.state
        [("retries", JVal.jnum (r + 1))]) "retries" = _
      rw [jlookup_jconcat_right db.state (by simp [hasKey, jlookup])]
      simp [jlookup]
    · intro k hk
      show jlookup (jconcat db.state
        [("retries", JVal.jnum (r + 1))]) k = _
      rw [jlookup_jconcat_left db.state
        (by simp [hasKey, jlookup, Ne.symm hk])]
  · intro now resp cnt t' hs hc
    exact ⟨_, rec_tick_success h now hs hc, _, rfl⟩
  · intro now resp he
    exact ⟨_, rec_tick_empty h he now, _, rfl⟩
  · intro now resp hf hge
    exact ⟨_, rec_tick_failure_giveup h hf hge now, _, rfl⟩

lemma upsertPost_preserves_flags {now : Nat} {item : JObj}
    {t t' : PostsTable} (h : upsertPost now item t = .ok t') (i : Int)
    (r : Post) (hl : lookupPost t i = some r) :
    ∃ r', lookupPost t' i = some r' ∧
      r'.is_liked = r.is_liked ∧ r'.is_processed = r.is_processed := by
  unfold upsertPost at h
  cases hid : itemId item with
  | error e => rw [hid] at h; exact absurd h (by simp)
  | ok oj =>
    rw [hid] at h
    cases oj with
    | none => exact absurd h (by simp)
    | some j =>
      dsimp only at h
      by_cases ha : t.any (fun p => p.1 = j)
      · rw [if_pos ha] at h
        injection h with h'
        subst h'
        obtain ⟨pr, hpr, hpr2⟩ :
            ∃ pr, t.find? (fun p => decide (p.1 = i)) = some pr ∧
              pr.2 = r := by
          unfold lookupPost at hl
          cases hf : t.find? (fun p => decide (p.1 = i)) with
          | none => rw [hf] at hl; simp at hl
          | some pr =>
            rw [hf] at hl
            simp at hl
            exact ⟨pr, rfl, hl⟩
        refine ⟨(if pr.1 = j then
            (pr.1, { pr.2 with raw_data := item, last_synced_at := now })
          else pr).2, ?_, ?_, ?_⟩
        · unfold lookupPost
          rw [List.find?_map _ t]
          have hp : ((fun p => decide (p.1 = i)) ∘
              (fun p => if p.1 = j then
                (p.1, { p.2 with raw_data := item, last_synced_at := now })
              else p)) = (fun p : Int × Post => decide (p.1 = i)) := by
            funext x
            by_cases hx : x.1 = j <;> simp [hx]
          rw [hp, hpr]
          rfl
        · by_cases hj : pr.1 = j <;> simp [hj, hpr2]
        · by_cases hj : pr.1 = j <;> simp [hj, hpr2]
      · rw [if_neg ha] at h
        injection h with h'
        subst h'
        refine ⟨r, ?_, rfl, rfl⟩
        unfold lookupPost at hl ⊢
        rw [List.find?_append]
        cases hf : t.find? (fun p => decide (p.1 = i)) with
        | none => rw [hf] at hl; simp at hl
        | some pr => rw [hf] at hl; rw [Option.or]; simpa using hl

lemma upsertAll_preserves_flags {now : Nat} (items : List JObj) :
    ∀ {t t' : PostsTable}, upsertAll now items t = .ok t' →
    ∀ (i : Int) (r : Post), lookupPost t i = some r →
    ∃ r', lookupPost t' i = some r' ∧
      r'.is_liked = r.is_liked ∧ r'.is_processed = r.is_processed := by
  induction items with
  | nil =>
    intro t t' h i r hl
    injection h with h'
    subst h'
    exact ⟨r, hl, rfl, rfl⟩
  | cons item rest ih =>
    intro t t' h i r hl
    show (∃ r', lookupPost t' i = some r' ∧ _ ∧ _)
    unfold upsertAll at h
    cases hu : upsertPost now item t with
    | error e => rw [hu] at h; exact absurd h (by simp [Bind.bind, Except.bind])
    | ok u =>
      rw [hu, except_bind_ok] at h
      obtain ⟨r1, hl1, hlik1, hproc1⟩ := upsertPost_preserves_flags hu i r hl
      obtain ⟨r2, hl2, hlik2, hproc2⟩ := ih h i r1 hl1
      exact ⟨r2, hl2, by rw [hlik2, hlik1], by rw [hproc2, hproc1]⟩

lemma sync_preserves_flags {now : Nat} {resp : HttpOutcome}
    {t : PostsTable} {cnt : Int} {t' : PostsTable}
    (h : sync_posts_from_remote now resp t = .ok (cnt, t'))
    (i : Int) (r : Post) (hl : lookupPost t i = some r) :
    ∃ r', lookupPost t' i = some r' ∧
      r'.is_liked = r.is_liked ∧ r'.is_processed = r.is_processed := by
  unfold sync_posts_from_remote at h
  cases resp with
  | transportError =>
    injection h with h'
    injection h' with h1 h2
    subst h2
    exact ⟨r, hl, rfl, rfl⟩
  | response s body =>
    cases body with
    | none =>
      injection h with h'
      injection h' with h1 h2
      subst h2
      exact ⟨r, hl, rfl, rfl⟩
    | some doc =>
      cases doc with
      | jnull =>
        injection h with h'
        injection h' with h1 h2
        subst h2
        exact ⟨r, hl, rfl, rfl⟩
      | jother => exact absurd h (by simp)
      | jarr items =>
        dsimp only at h
        by_cases hlen : items.length = 0
        · rw [if_pos hlen] at h
          injection h with h'
          injection h' with h1 h2
          subst h2
          exact ⟨r, hl, rfl, rfl⟩
        · rw [if_neg hlen] at h
          cases hu : upsertAll now items t with
          | error e =>
            rw [hu] at h
            exact absurd h (by simp [Bind.bind, Except.bind])
          | ok u =>
            rw [hu, except_bind_ok] at h
            injection h with h'
            injection h' with h1 h2
            subst h2
            exact upsertAll_preserves_flags items hu i r hl

lemma bf_tick_posts {now : Nat} {resp : HttpOutcome} {db db' : BackfillDb}
    (h : task_backfill_all_posts now resp db = .ok db') :
    db'.posts = db.posts ∨
      ∃ c, sync_posts_from_remote now resp db.posts = .ok (c, db'.posts) := by
  unfold task_backfill_all_posts at h
  cases h1 : castTextInt (jlookup db.state "current_page") with
  | error e => rw [h1] at h; exact absurd h (by simp [Bind.bind, Except.bind])
  | ok cp =>
    rw [h1, except_bind_ok] at h
    cases h2 : castTextBool (jlookup db.state "is_active") with
    | error e => rw [h2] at h; exact absurd h (by simp [Bind.bind, Except.bind])
    | ok act =>
      rw [h2, except_bind_ok] at h
      cases h3 : castTextInt (jlookup db.state "retries") with
      | error e =>
        rw [h3] at h
        exact absurd h (by simp [Bind.bind, Except.bind])
      | ok rr =>
        rw [h3, except_bind_ok] at h
        by_cases hact : act = some false
        · rw [if_pos hact] at h
          injection h with h'
          subst h'
          exact Or.inl rfl
        · rw [if_neg hact] at h
          cases hs : sync_posts_from_remote now resp db.posts with
          | error e =>
            rw [hs] at h
            exact absurd h (by simp [Bind.bind, Except.bind])
          | ok v =>
            rw [hs, except_bind_ok] at h
            dsimp only at h
            refine Or.inr ⟨v.1, ?_⟩
            split_ifs at h <;>
              (injection h with h'
               subst h')
            all_goals rfl

lemma rec_tick_posts {now : Nat} {resp : HttpOutcome} {db db' : RecurringDb}
    (h : task_sync_recent_posts now resp db = .ok db') :
    ∃ c, sync_posts_from_remote now resp db.posts = .ok (c, db'.posts) := by
  unfold task_sync_recent_posts at h
  cases h1 : castTextInt (jlookup db.state "current_page") with
  | error e => rw [h1] at h; exact absurd h (by simp [Bind.bind, Except.bind])
  | ok cp =>
    rw [h1, except_bind_ok] at h
    cases h2 : castTextInt (jlookup db.state "retries") with
    | error e => rw [h2] at h; exact absurd h (by simp [Bind.bind, Except.bind])
    | ok rr =>
      rw [h2, except_bind_ok] at h
      cases hs : sync_posts_from_remote now resp db.posts with
      | error e =>
        rw [hs] at h
        exact absurd h (by simp [Bind.bind, Except.bind])
      | ok v =>
        rw [hs, except_bind_ok] at h
        dsimp only at h
        refine ⟨v.1, ?_⟩
        split_ifs at h <;>
          (injection h with h'
           subst h')
        all_goals rfl

/-- C9: the upsert performed by `sync_posts_from_remote` on an
already-stored post id writes only `raw_data` and `last_synced_at`: the
`is_liked` and `is_processed` flags of every stored post survive every call
of the Fetcher and every tick of either job unchanged. -/
theorem claim_C9_flags_preserved :
    (∀ (now : Nat) (resp : HttpOutcome) (t : PostsTable) (cnt : Int)
      (t' : PostsTable),
      sync_posts_from_remote now resp t = .ok (cnt, t') →
      ∀ (i : Int) (r : Post), lookupPost t i = some r →
      ∃ r', lookupPost t' i = some r' ∧
        r'.is_liked = r.is_liked ∧ r'.is_processed = r.is_processed) ∧
    (∀ (now : Nat) (resp : HttpOutcome) (db db' : BackfillDb),
      task_backfill_all_posts now resp db = .ok db' →
      ∀ (i : Int) (r : Post), lookupPost db.posts i = some r →
      ∃ r', lookupPost db'.posts i = some r' ∧
        r'.is_liked = r.is_liked ∧ r'.is_processed = r.is_processed) ∧
    (∀ (now : Nat) (resp : HttpOutcome) (db db' : RecurringDb),
      task_sync_recent_posts now resp db = .ok db' →
      ∀ (i : Int) (r : Post), lookupPost db.posts i = some r →
      ∃ r', lookupPost db'.posts i = some r' ∧
        r'.is_liked = r.is_liked ∧ r'.is_processed = r.is_processed) := by
  refine ⟨?_, ?_, ?_⟩
  · intro now resp t cnt t' h i r hl
    exact sync_preserves_flags h i r hl
  · intro now resp db db' h i r hl
    rcases bf_tick_posts h with hsame | ⟨c, hs⟩
    · rw [hsame]
      exact ⟨r, hl, rfl, rfl⟩
    · exact sync_preserves_flags hs i r hl
  · intro now resp db db' h i r hl
    obtain ⟨c, hs⟩ := rec_tick_posts h
    exact sync_preserves_flags hs i r hl

lemma overwriteWith_fst (now : Nat) (item : JObj) (i : Int) (p : Int × Post) :
    (overwriteWith now item i p).1 = p.1 := by
  unfold overwriteWith
  split <;> rfl

lemma overwriteWith_flags (now : Nat) (item : JObj) (i : Int)
    (p : Int × Post) :
    (overwriteWith now item i p).2.is_liked = p.2.is_liked ∧
    (overwriteWith now item i p).2.is_processed = p.2.is_processed := by
  unfold overwriteWith
  split <;> exact ⟨rfl, rfl⟩

lemma overwriteWith_idem (now : Nat) (item : JObj) (i : Int)
    (p : Int × Post) :
    overwriteWith now item i (overwriteWith now item i p) =
      overwriteWith now item i p := by
  unfold overwriteWith
  by_cases h : p.1 = i <;> simp [h]

lemma upsertPost_inv {now : Nat} {item : JObj} {t u : PostsTable}
    (h : upsertPost now item t = .ok u) :
    ∃ i, itemId item = .ok (some i) ∧
      ((t.any (fun p => p.1 = i) = true ∧
        u = t.map (overwriteWith now item i)) ∨
       (t.any (fun p => p.1 = i) = false ∧
        u = t ++ [(i, ⟨item, false, false, now⟩)])) := by
  unfold upsertPost at h
  cases hid : itemId item with
  | error e => rw [hid] at h; exact absurd h (by simp)
  | ok oj =>
    rw [hid] at h
    cases oj with
    | none => exact absurd h (by simp)
    | some i =>
      dsimp only at h
      refine ⟨i, rfl, ?_⟩
      cases ha : t.any (fun p => p.1 = i) with
      | true =>
        rw [ha] at h
        simp only [if_true] at h
        injection h with h'
        exact Or.inl ⟨rfl, h'.symm⟩
      | false =>
        rw [ha] at h
        simp only [Bool.false_eq_true, if_false] at h
        injection h with h'
        exact Or.inr ⟨rfl, h'.symm⟩

lemma simPair_refl (items : List JObj) (p : Int × Post) : SimPair items p p :=
  ⟨rfl, rfl, rfl, Or.inl rfl⟩

lemma simPair_mono {items : List JObj} (item : JObj) {p q : Int × Post}
    (h : SimPair items p q) : SimPair (item :: items) p q := by
  obtain ⟨h1, h2, h3, h4⟩ := h
  refine ⟨h1, h2, h3, ?_⟩
  rcases h4 with heq | ⟨w, hw, hid⟩
  · exact Or.inl heq
  · exact Or.inr ⟨w, List.mem_cons_of_mem _ hw, hid⟩

lemma simW_nil_eq {a b : PostsTable} (h : SimW [] a b) : a = b := by
  induction h with
  | nil => rfl
  | cons hp _ ih =>
    rcases hp.2.2.2 with heq | ⟨w, hw, _⟩
    · rw [heq, ih]
    · exact absurd hw (List.not_mem_nil _)

lemma simW_map_fst {items : List JObj} {a b : PostsTable}
    (h : SimW items a b) : a.map Prod.fst = b.map Prod.fst := by
  induction h with
  | nil => rfl
  | cons hp _ ih => simp [hp.1, ih]

lemma simW_any {items : List JObj} {a b : PostsTable} (h : SimW items a b)
    (i : Int) :
    a.any (fun p => p.1 = i) = b.any (fun p => p.1 = i) := by
  induction h with
  | nil => rfl
  | cons hp _ ih => simp [hp.1, ih]

lemma simPair_step {items : List JObj} {item : JObj} {i : Int} (now : Nat)
    (hid : itemId item = .ok (some i)) {p q : Int × Post}
    (h : SimPair (item :: items) p q) :
    SimPair items (overwriteWith now item i p) (overwriteWith now item i q) := by
  obtain ⟨h1, h2, h3, h4⟩ := h
  by_cases hp : p.1 = i
  · have hq : q.1 = i := h1 ▸ hp
    refine ⟨?_, ?_, ?_, Or.inl ?_⟩
    · rw [overwriteWith_fst, overwriteWith_fst]
      exact h1
    · rw [(overwriteWith_flags now item i p).1,
        (overwriteWith_flags now item i q).1]
      exact h2
    · rw [(overwriteWith_flags now item i p).2,
        (overwriteWith_flags now item i q).2]
      exact h3
    · unfold overwriteWith
      rw [if_pos hp, if_pos hq]
      obtain ⟨pi, pp⟩ := p
      obtain ⟨qi, qp⟩ := q
      obtain ⟨pr, pproc, plik, pls⟩ := pp
      obtain ⟨qr, qproc, qlik, qls⟩ := qp
      simp only at h1 h2 h3 hp hq
      rw [h1, h2, h3]
  · have hq : ¬ q.1 = i := h1 ▸ hp
    unfold overwriteWith
    rw [if_neg hp, if_neg hq]
    refine ⟨h1, h2, h3, ?_⟩
    rcases h4 with heq | ⟨w, hw, hwid⟩
    · exact Or.inl heq
    · rcases List.mem_cons.mp hw with hw1 | hw2
      · subst hw1
        rw [hid] at hwid
        injection hwid with h'
        injection h' with h''
        exact absurd h''.symm hp
      · exact Or.inr ⟨w, hw2, hwid⟩

lemma simW_tail_of_not_mem {item : JObj} {rest : List JObj} {i : Int}
    (hid : itemId item = .ok (some i)) :
    ∀ {a b : PostsTable}, SimW (item :: rest) a b →
    (∀ p ∈ a, p.1 ≠ i) → SimW rest a b := by
  intro a b h hni
  induction a generalizing b with
  | nil => cases h; exact List.Forall₂.nil
  | cons p a1 ih =>
    cases h with
    | cons hp htail =>
      refine List.Forall₂.cons ?_
        (ih htail (fun q hq => hni q (List.mem_cons_of_mem _ hq)))
      obtain ⟨h1, h2, h3, h4⟩ := hp
      refine ⟨h1, h2, h3, ?_⟩
      rcases h4 with heq | ⟨w, hw, hwid⟩
      · exact Or.inl heq
      · rcases List.mem_cons.mp hw with hw1 | hw2
        · subst hw1
          rw [hid] at hwid
          injection hwid with h'
          injection h' with h''
          exact absurd h''.symm (hni p (List.mem_cons_self _ _))
        · exact Or.inr ⟨w, hw2, hwid⟩

/-- Two-run simulation: running the same item list over two `SimW`-related
tables produces the same table. -/
lemma upsertAll_sim (now : Nat) (items : List JObj) :
    ∀ {a b a' : PostsTable}, SimW items a b →
    upsertAll now items a = .ok a' → upsertAll now items b = .ok a' := by
  induction items with
  | nil =>
    intro a b a' hsim h
    rw [← simW_nil_eq hsim]
    exact h
  | cons item rest ih =>
    intro a b a' hsim h
    unfold upsertAll at h ⊢
    cases hu : upsertPost now item a with
    | error e => rw [hu] at h; exact absurd h (by simp [Bind.bind, Except.bind])
    | ok a2 =>
      rw [hu, except_bind_ok] at h
      obtain ⟨i, hid, hcases⟩ := upsertPost_inv hu
      have hany := simW_any hsim i
      rcases hcases with ⟨ha, ha2⟩ | ⟨ha, ha2⟩
      · -- in-place update on both sides
        have hb : b.any (fun p => p.1 = i) = true := by rw [← hany]; exact ha
        have hub : upsertPost now item b =
            .ok (b.map (overwriteWith now item i)) := by
          unfold upsertPost
          rw [hid]
          dsimp only
          rw [hb, if_pos rfl]
          rfl
        rw [hub, except_bind_ok]
        refine ih ?_ (ha2 ▸ h)
        show List.Forall₂ (SimPair rest) _ _
        rw [List.forall₂_map_left_iff, List.forall₂_map_right_iff]
        exact List.Forall₂.imp (fun p q hpq => simPair_step now hid hpq) hsim
      · -- append on both sides
        have hb : b.any (fun p => p.1 = i) = false := by rw [← hany]; exact ha
        have hub : upsertPost now item b =
            .ok (b ++ [(i, ⟨item, false, false, now⟩)]) := by
          unfold upsertPost
          rw [hid]
          dsimp only
          rw [hb]
          rfl
        rw [hub, except_bind_ok]
        refine ih ?_ (ha2 ▸ h)
        have hni : ∀ p ∈ a, p.1 ≠ i := by
          intro p hp hpi
          have : a.any (fun p => p.1 = i) = true :=
            List.any_eq_true.mpr ⟨p, hp, by simp [hpi]⟩
          rw [this] at ha
          exact absurd ha (by simp)
        exact List.rel_append (simW_tail_of_not_mem hid hsim hni)
          (List.forall₂_cons.mpr ⟨simPair_refl rest _, List.Forall₂.nil⟩)

lemma upsertPost_mem {now : Nat} {item : JObj} {t u : PostsTable} {i : Int}
    (h : upsertPost now item t = .ok u) (hid : itemId item = .ok (some i)) :
    u.any (fun p => p.1 = i) = true := by
  obtain ⟨i', hid', hcases⟩ := upsertPost_inv h
  rw [hid] at hid'
  injection hid' with h'
  injection h' with h''
  subst h''
  rcases hcases with ⟨ha, rfl⟩ | ⟨ha, rfl⟩
  · rw [List.any_map]
    have : ((fun p : Int × Post => decide (p.1 = i)) ∘
        overwriteWith now item i) =
        (fun p : Int × Post => decide (p.1 = i)) := by
      funext x
      simp [overwriteWith_fst]
    rw [this]
    exact ha
  · rw [List.any_append]
    simp

lemma upsertPost_any_mono {now : Nat} {item : JObj} {t u : PostsTable}
    {j : Int} (h : upsertPost now item t = .ok u)
    (hj : t.any (fun p => p.1 = j) = true) :
    u.any (fun p => p.1 = j) = true := by
  obtain ⟨i, hid, hcases⟩ := upsertPost_inv h
  rcases hcases with ⟨ha, rfl⟩ | ⟨ha, rfl⟩
  · rw [List.any_map]
    have : ((fun p : Int × Post => decide (p.1 = j)) ∘
        overwriteWith now item i) =
        (fun p : Int × Post => decide (p.1 = j)) := by
      funext x
      simp [overwriteWith_fst]
    rw [this]
    exact hj
  · rw [List.any_append, hj]
    rfl

lemma upsertAll_any_mono {now : Nat} (items : List JObj) :
    ∀ {t t' : PostsTable} {j : Int}, upsertAll now items t = .ok t' →
    t.any (fun p => p.1 = j) = true → t'.any (fun p => p.1 = j) = true := by
  induction items with
  | nil =>
    intro t t' j h hj
    injection h with h'
    subst h'
    exact hj
  | cons item rest ih =>
    intro t t' j h hj
    unfold upsertAll at h
    cases hu : upsertPost now item t with
    | error e => rw [hu] at h; exact absurd h (by simp [Bind.bind, Except.bind])
    | ok u =>
      rw [hu, except_bind_ok] at h
      exact ih h (upsertPost_any_mono hu hj)

lemma upsertPost_filter_frame {now : Nat} {item : JObj} {t u : PostsTable}
    {i i' : Int} (h : upsertPost now item t = .ok u)
    (hid : itemId item = .ok (some i')) (hne : i' ≠ i) :
    u.filter (fun p => p.1 = i) = t.filter (fun p => p.1 = i) := by
  obtain ⟨j, hid', hcases⟩ := upsertPost_inv h
  rw [hid] at hid'
  injection hid' with h'
  injection h' with h''
  subst h''
  rcases hcases with ⟨ha, rfl⟩ | ⟨ha, rfl⟩
  · rw [List.filter_map _ t]
    have hpred : ((fun p : Int × Post => decide (p.1 = i)) ∘
        overwriteWith now item i') =
        (fun p : Int × Post => decide (p.1 = i)) := by
      funext x
      simp [overwriteWith_fst]
    rw [hpred]
    have hById : ∀ x ∈ t.filter (fun p : Int × Post => p.1 = i),
        overwriteWith now item i' x = x := by
      intro x hx
      have hxi : x.1 = i := by
        have := (List.mem_filter.mp hx).2
        simpa using this
      unfold overwriteWith
      rw [if_neg (by rw [hxi]; exact fun hc => hne hc.symm)]
    rw [List.map_congr_left hById, List.map_id']
  · rw [List.filter_append]
    have : ([(i', (⟨item, false, false, now⟩ : Post))].filter
        (fun p : Int × Post => p.1 = i)) = [] := by
      simp [List.filter, hne]
    rw [this, List.append_nil]

lemma upsertAll_filter_frame {now : Nat} (items : List JObj) :
    ∀ {t t' : PostsTable} {i : Int}, upsertAll now items t = .ok t' →
    (∀ w ∈ items, ¬ itemId w = .ok (some i)) →
    t'.filter (fun p => p.1 = i) = t.filter (fun p => p.1 = i) := by
  induction items with
  | nil =>
    intro t t' i h _
    injection h with h'
    subst h'
    rfl
  | cons item rest ih =>
    intro t t' i h hni
    unfold upsertAll at h
    cases hu : upsertPost now item t with
    | error e => rw [hu] at h; exact absurd h (by simp [Bind.bind, Except.bind])
    | ok u =>
      rw [hu, except_bind_ok] at h
      obtain ⟨j, hid, _⟩ := upsertPost_inv hu
      have hji : j ≠ i := by
        intro hc
        exact hni item (List.mem_cons_self _ _) (hc ▸ hid)
      rw [ih h (fun w hw => hni w (List.mem_cons_of_mem _ hw)),
        upsertPost_filter_frame hu hid hji]

lemma upsertPost_rows_fixed {now : Nat} {item : JObj} {t u : PostsTable}
    {i : Int} (h : upsertPost now item t = .ok u)
    (hid : itemId item = .ok (some i)) :
    ∀ p ∈ u, p.1 = i → overwriteWith now item i p = p := by
  obtain ⟨i', hid', hcases⟩ := upsertPost_inv h
  rw [hid] at hid'
  injection hid' with h'
  injection h' with h''
  subst h''
  intro p hp hpi
  rcases hcases with ⟨ha, rfl⟩ | ⟨ha, rfl⟩
  · obtain ⟨q, hq, rfl⟩ := List.mem_map.mp hp
    exact overwriteWith_idem now item i q
  · rcases List.mem_append.mp hp with hpt | hpf
    · exfalso
      have := List.any_eq_false.mp ha
      exact absurd (by simp [hpi]) (this p hpt)
    · have hpf' : p = (i, (⟨item, false, false, now⟩ : Post)) := by
        simpa using hpf
      subst hpf'
      unfold overwriteWith
      rw [if_pos rfl]

lemma simW_overwrite_self {rest : List JObj} {i : Int} (now : Nat)
    (item : JObj) (hocc : ∃ w ∈ rest, itemId w = .ok (some i)) :
    ∀ (t : PostsTable), SimW rest t (t.map (overwriteWith now item i)) := by
  intro t
  induction t with
  | nil => exact List.Forall₂.nil
  | cons p t1 ih =>
    refine List.Forall₂.cons ?_ ih
    by_cases hpi : p.1 = i
    · obtain ⟨w, hw, hwid⟩ := hocc
      exact ⟨(overwriteWith_fst now item i p).symm,
        ((overwriteWith_flags now item i p).1).symm,
        ((overwriteWith_flags now item i p).2).symm,
        Or.inr ⟨w, hw, hpi ▸ hwid⟩⟩
    · have : overwriteWith now item i p = p := by
        unfold overwriteWith
        rw [if_neg hpi]
      rw [this]
      exact simPair_refl rest p

/-- Idempotence of the upsert loop: re-applying the same item list to its
own output table is the identity. -/
lemma upsertAll_idem (now : Nat) (items : List JObj) :
    ∀ {t t1 : PostsTable}, upsertAll now items t = .ok t1 →
    upsertAll now items t1 = .ok t1 := by
  induction items with
  | nil =>
    intro t t1 h
    injection h with h'
    subst h'
    rfl
  | cons item rest ih =>
    intro t t1 h
    unfold upsertAll at h ⊢
    cases hu : upsertPost now item t with
    | error e => rw [hu] at h; exact absurd h (by simp [Bind.bind, Except.bind])
    | ok u =>
      rw [hu, except_bind_ok] at h
      have hfix : upsertAll now rest t1 = .ok t1 := ih h
      obtain ⟨i, hid, _⟩ := upsertPost_inv hu
      have hmem_u : u.any (fun p => p.1 = i) = true := upsertPost_mem hu hid
      have hmem_t1 : t1.any (fun p => p.1 = i) = true :=
        upsertAll_any_mono rest h hmem_u
      have hw : upsertPost now item t1 =
          .ok (t1.map (overwriteWith now item i)) := by
        unfold upsertPost
        rw [hid]
        dsimp only
        rw [hmem_t1, if_pos rfl]
        rfl
      rw [hw, except_bind_ok]
      by_cases hocc : ∃ w ∈ rest, itemId w = .ok (some i)
      · exact upsertAll_sim now rest (simW_overwrite_self now item hocc t1) hfix
      · have hnocc : ∀ w ∈ rest, ¬ itemId w = .ok (some i) := by
          intro w hw' hc
          exact hocc ⟨w, hw', hc⟩
        have hfilter : t1.filter (fun p => p.1 = i) =
            u.filter (fun p => p.1 = i) :=
          upsertAll_filter_frame rest h hnocc
        have hrows : ∀ p ∈ t1, overwriteWith now item i p = p := by
          intro p hp
          by_cases hpi : p.1 = i
          · have hpu : p ∈ u := by
              have hpf : p ∈ t1.filter (fun p : Int × Post => p.1 = i) :=
                List.mem_filter.mpr ⟨hp, by simp [hpi]⟩
              rw [hfilter] at hpf
              exact List.mem_of_mem_filter hpf
            exact upsertPost_rows_fixed hu hid p hpu hpi
          · unfold overwriteWith
            rw [if_neg hpi]
        rw [List.map_congr_left hrows, List.map_id']
        exact hfix

lemma upsertPost_nodup {now : Nat} {item : JObj} {t u : PostsTable}
    (h : upsertPost now item t = .ok u)
    (hn : (t.map Prod.fst).Nodup) : (u.map Prod.fst).Nodup := by
  obtain ⟨i, hid, hcases⟩ := upsertPost_inv h
  rcases hcases with ⟨ha, rfl⟩ | ⟨ha, rfl⟩
  · rw [List.map_map]
    have : (Prod.fst ∘ overwriteWith now item i) =
        (Prod.fst : Int × Post → Int) := by
      funext x
      exact overwriteWith_fst now item i x
    rw [this]
    exact hn
  · rw [List.map_append]
    have hni : i ∉ t.map Prod.fst := by
      intro hc
      obtain ⟨p, hp, hpi⟩ := List.mem_map.mp hc
      have := List.any_eq_false.mp ha
      exact absurd (by simp [hpi]) (this p hp)
    simp [List.nodup_append, hn, hni]

lemma upsertAll_nodup {now : Nat} (items : List JObj) :
    ∀ {t t' : PostsTable}, upsertAll now items t = .ok t' →
    (t.map Prod.fst).Nodup → (t'.map Prod.fst).Nodup := by
  induction items with
  | nil =>
    intro t t' h hn
    injection h with h'
    subst h'
    exact hn
  | cons item rest ih =>
    intro t t' h hn
    unfold upsertAll at h
    cases hu : upsertPost now item t with
    | error e => rw [hu] at h; exact absurd h (by simp [Bind.bind, Except.bind])
    | ok u =>
      rw [hu, except_bind_ok] at h
      exact ih h (upsertPost_nodup hu hn)

/-- C8: applying the same successful fetch result (the same item list) to
the posts table twice gives the same stored table as applying it once; the
id-keyed upsert creates no duplicate rows.  Stated for the upsert loop and
for `sync_posts_from_remote` on an array body. -/
theorem claim_C8_idempotent_upsert :
    (∀ (now : Nat) (items : List JObj) (t t1 : PostsTable),
      upsertAll now items t = .ok t1 →
      upsertAll now items t1 = .ok t1 ∧
      ((t.map Prod.fst).Nodup → (t1.map Prod.fst).Nodup)) ∧
    (∀ (now s : Nat) (items : List JObj) (t t1 : PostsTable) (c : Int),
      sync_posts_from_remote now
        (HttpOutcome.response s (some (JsonDoc.jarr items))) t = .ok (c, t1) →
      sync_posts_from_remote now
        (HttpOutcome.response s (some (JsonDoc.jarr items))) t1 =
        .ok (c, t1)) := by
  constructor
  · intro now items t t1 h
    exact ⟨upsertAll_idem now items h, upsertAll_nodup items h⟩
  · intro now s items t t1 c h
    unfold sync_posts_from_remote at h ⊢
    dsimp only at h ⊢
    by_cases hlen : items.length = 0
    · rw [if_pos hlen] at h ⊢
      injection h with h'
      injection h' with h1 h2
      subst h2
      subst h1
      rfl
    · rw [if_neg hlen] at h ⊢
      cases hu : upsertAll now items t with
      | error e =>
        rw [hu] at h
        exact absurd h (by simp [Bind.bind, Except.bind])
      | ok u =>
        rw [hu, except_bind_ok] at h
        injection h with h'
        injection h' with h1 h2
        subst h2
        subst h1
        rw [upsertAll_idem now items hu, except_bind_ok]

/-- Witness for C1: the seeded Backfill job, nine transport failures, then a
tenth. -/
theorem claim_C1_witness :
    ∃ db9, backfillRun (List.replicate 9 (0, HttpOutcome.transportError))
        seedBackfillDb = .ok db9 ∧
      castTextBool (jlookup db9.state "is_active") = .ok (some true) ∧
      ∃ db10, task_backfill_all_posts 7 HttpOutcome.transportError db9 =
          .ok db10 ∧
        jlookup db10.state "is_active" = some (JVal.jbool false) ∧
        jlookup db10.state "final_status" = some (JVal.jstr "failed") ∧
        db10.cron = none :=
  claim_C1_backfill_giveup seedBackfillDb (some 1) ⟨rfl, rfl, rfl⟩
    (List.replicate 9 (0, HttpOutcome.transportError)) (by decide)
    (fun x hx => by
      rw [List.eq_of_mem_replicate hx]
      exact failureResp_transportError)
    7 HttpOutcome.transportError failureResp_transportError

/-- Witness for C2: an Empty tick on the seeded Backfill job, and a no-op
tick on an inactive row. -/
theorem claim_C2_witness :
    (∃ db', task_backfill_all_posts 4
        (HttpOutcome.response 200 (some (JsonDoc.jarr []))) seedBackfillDb =
        .ok db' ∧
      jlookup db'.state "is_active" = some (JVal.jbool false) ∧
      jlookup db'.state "final_status" = some (JVal.jstr "completed") ∧
      db'.cron = none ∧ db'.posts = seedBackfillDb.posts ∧
      ∀ ticks, backfillRun ticks db' = .ok db') ∧
    task_backfill_all_posts 9 HttpOutcome.transportError
      ⟨[], [("current_page", JVal.jnum 2), ("retries", JVal.jnum 0),
            ("is_active", JVal.jbool false)], none, none⟩ =
      .ok ⟨[], [("current_page", JVal.jnum 2), ("retries", JVal.jnum 0),
                ("is_active", JVal.jbool false)], none, none⟩ :=
  ⟨claim_C2_backfill_termination.1 seedBackfillDb (some 1) (some 0)
      ⟨rfl, rfl, rfl⟩ _ (emptyResp_emptyArray 200) 4,
   claim_C2_backfill_termination.2
      ⟨[], [("current_page", JVal.jnum 2), ("retries", JVal.jnum 0),
            ("is_active", JVal.jbool false)], none, none⟩
      (some 2) (some 0) ⟨rfl, rfl, rfl⟩ 9 HttpOutcome.transportError⟩

/-- Witness for C3: an Empty tick advancing the seeded cursor, and a
one-success-tick run from cursor 1. -/
theorem claim_C3_witness :
    (∃ db', task_sync_recent_posts 2
        (HttpOutcome.response 200 (some JsonDoc.jnull)) seedRecurringDb =
        .ok db' ∧
      jlookup db'.state "current_page" =
        some (JVal.jnum (Int.tmod 1 30 + 1))) ∧
    (∃ db', recurringRun
        [(3, HttpOutcome.response 200
          (some (JsonDoc.jarr [[("id", JVal.jnum 5)]])))] seedRecurringDb =
        .ok db' ∧
      db'.state = recState ((((1 : Nat) : Int) % 30) + 1) ∧
      1 ≤ (((1 : Nat) : Int) % 30) + 1 ∧
      (((1 : Nat) : Int) % 30) + 1 ≤ 30) :=
  ⟨claim_C3_recurring_wraparound.2.1 seedRecurringDb 1 (some 0) ⟨rfl, rfl⟩
      2 _ (emptyResp_nullBody 200),
   claim_C3_recurring_wraparound.2.2
      [(3, HttpOutcome.response 200
        (some (JsonDoc.jarr [[("id", JVal.jnum 5)]])))] seedRecurringDb
      (fun x hx => by
        rw [List.mem_singleton.mp hx]
        exact Or.inl (successResp_singleton 200 5))
      rfl⟩

/-- Witness for C4: a give-up tick at cursor 30 and retries 4, and the
bounded-stuckness statement at the seeded row. -/
theorem claim_C4_witness :
    task_sync_recent_posts 2 HttpOutcome.transportError
      ⟨[], [("current_page", JVal.jnum 30), ("retries", JVal.jnum 4)],
        none⟩ =
      .ok ⟨[], recState (Int.tmod 30 30 + 1), some 2⟩ ∧
    (∃ k, k ≤ 5 ∧ ∀ ticks, ticks.length = k →
      (∀ x ∈ ticks, FailureResp x.2) →
      ∃ db', recurringRun ticks seedRecurringDb = .ok db' ∧
        db'.state = recState (Int.tmod 1 30 + 1) ∧
        db'.posts = seedRecurringDb.posts) :=
  ⟨claim_C4_recurring_self_healing.1
      ⟨[], [("current_page", JVal.jnum 30), ("retries", JVal.jnum 4)], none⟩
      30 4 ⟨rfl, rfl⟩ HttpOutcome.transportError failureResp_transportError
      (by decide) 2,
   claim_C4_recurring_self_healing.2.1 seedRecurringDb 1 0 ⟨rfl, rfl⟩
      (by decide) (by decide)⟩

/-- Witness for C6 amended: an active tick stamps `last_run_at`, with the
concrete post-tick row. -/
theorem claim_C6_witness :
    (true = true →
      (BackfillDb.mk []
        [("current_page", JVal.jnum 1), ("is_active", JVal.jbool true),
         ("retries", JVal.jnum 1)] (some 5) (some "5 minutes")).lastRun =
        some 5) ∧
    (true = false →
      BackfillDb.mk []
        [("current_page", JVal.jnum 1), ("is_active", JVal.jbool true),
         ("retries", JVal.jnum 1)] (some 5) (some "5 minutes") =
        seedBackfillDb) :=
  claim_C6_amended_last_run seedBackfillDb (some 1) true (some 0)
    ⟨rfl, rfl, rfl⟩ 5 HttpOutcome.transportError _ (by decide)

/-- Witness for C7: three backfill failures and two recurring failures from
the seeded rows. -/
theorem claim_C7_witness :
    (∀ k ≤ (List.replicate 3 (0, HttpOutcome.transportError)).length,
      ∃ dbk, backfillRun
          ((List.replicate 3 (0, HttpOutcome.transportError)).take k)
          seedBackfillDb = .ok dbk ∧
        castTextInt (jlookup dbk.state "retries") = .ok (some (k : Int)) ∧
        jlookup dbk.state "current_page" =
          jlookup seedBackfillDb.state "current_page" ∧
        jlookup dbk.state "is_active" =
          jlookup seedBackfillDb.state "is_active" ∧
        dbk.posts = seedBackfillDb.posts) ∧
    (∀ k ≤ (List.replicate 2 (0, HttpOutcome.transportError)).length,
      ∃ dbk, recurringRun
          ((List.replicate 2 (0, HttpOutcome.transportError)).take k)
          seedRecurringDb = .ok dbk ∧
        castTextInt (jlookup dbk.state "retries") = .ok (some (k : Int)) ∧
        jlookup dbk.state "current_page" =
          jlookup seedRecurringDb.state "current_page" ∧
        dbk.posts = seedRecurringDb.posts) :=
  claim_C7_retry_monotonicity seedBackfillDb seedRecurringDb
    (some 1) (some 1) ⟨rfl, rfl, rfl⟩ ⟨rfl, rfl⟩
    (List.replicate 3 (0, HttpOutcome.transportError))
    (List.replicate 2 (0, HttpOutcome.transportError))
    (fun x hx => by
      rw [List.eq_of_mem_replicate hx]
      exact failureResp_transportError)
    (fun x hx => by
      rw [List.eq_of_mem_replicate hx]
      exact failureResp_transportError)
    (by decide) (by decide)

/-- Witness for C8: re-applying a duplicate-id item list to its own output
is the identity, starting from the empty table. -/
theorem claim_C8_witness :
    upsertAll 0 [[("id", JVal.jnum 1)], [("id", JVal.jnum 1)]]
        [(1, ⟨[("id", JVal.jnum 1)], false, false, 0⟩)] =
      .ok [(1, ⟨[("id", JVal.jnum 1)], false, false, 0⟩)] ∧
    ((([] : PostsTable).map Prod.fst).Nodup →
      ((([(1, ⟨[("id", JVal.jnum 1)], false, false, 0⟩)] : PostsTable).map
        Prod.fst).Nodup)) :=
  claim_C8_idempotent_upsert.1 0
    [[("id", JVal.jnum 1)], [("id", JVal.jnum 1)]] []
    [(1, ⟨[("id", JVal.jnum 1)], false, false, 0⟩)] (by decide)

/-- Witness for C9: a Failure fetch leaves the flags of a stored row
untouched. -/
theorem claim_C9_witness :
    ∃ r', lookupPost [(7, (⟨[], false, true, 3⟩ : Post))] 7 = some r' ∧
      r'.is_liked = (⟨[], false, true, 3⟩ : Post).is_liked ∧
      r'.is_processed = (⟨[], false, true, 3⟩ : Post).is_processed :=
  claim_C9_flags_preserved.1 1 HttpOutcome.transportError
    [(7, ⟨[], false, true, 3⟩)] (-1) [(7, ⟨[], false, true, 3⟩)] rfl
    7 ⟨[], false, true, 3⟩ (by decide)

/-- Witness for C10: a retry tick on a row carrying an extra state key keeps
that key, an Empty tick discards it. -/
theorem claim_C10_witness :
    (∃ db', task_sync_recent_posts 6 HttpOutcome.transportError
        ⟨[], [("current_page", JVal.jnum 9), ("retries", JVal.jnum 1),
              ("note", JVal.jstr "x")], none⟩ = .ok db' ∧
      db'.state = jconcat
        [("current_page", JVal.jnum 9), ("retries", JVal.jnum 1),
         ("note", JVal.jstr "x")] [("retries", JVal.jnum (1 + 1))] ∧
      jlookup db'.state "retries" = some (JVal.jnum (1 + 1)) ∧
      ∀ k, k ≠ "retries" → jlookup db'.state k =
        jlookup [("current_page", JVal.jnum 9), ("retries", JVal.jnum 1),
                 ("note", JVal.jstr "x")] k) ∧
    (∃ db', task_sync_recent_posts 6
        (HttpOutcome.response 200 (some (JsonDoc.jarr [])))
        ⟨[], [("current_page", JVal.jnum 9), ("retries", JVal.jnum 1),
              ("note", JVal.jstr "x")], none⟩ = .ok db' ∧
      ∃ v, db'.state = [("current_page", v), ("retries", JVal.jnum 0)]) :=
  ⟨(claim_C10_recurring_state_shape
      ⟨[], [("current_page", JVal.jnum 9), ("retries", JVal.jnum 1),
            ("note", JVal.jstr "x")], none⟩
      (some 9) 1 ⟨rfl, rfl⟩).1 6 HttpOutcome.transportError
      failureResp_transportError (by decide),
   (claim_C10_recurring_state_shape
      ⟨[], [("current_page", JVal.jnum 9), ("retries", JVal.jnum 1),
            ("note", JVal.jstr "x")], none⟩
      (some 9) 1 ⟨rfl, rfl⟩).2.2.1 6 _ (emptyResp_emptyArray 200)⟩
